import Mathlib

/-!
# Verification of the OPX POI Manager GUI (src/qudi/gui/opx_poimanager/opxpoimanager.py)

Shallow embedding of the POI manager presentation layer:

* `NameValidator` — the per-keystroke text validator (`NameValidator.validate`);
* `PoiMarkerG` — the geometric state of one POI marker (`PoiMarker`);
* `GuiState` / handlers — the orchestrator (`PoiManagerGui`): marker bookkeeping,
  combo-box mirror, live signal connections, plot data, and the notification
  handlers `update_poi`, `update_active_poi`, `_update_pois`,
  `_update_roi_history`, `_add_poi_marker`, `_remove_poi_marker`,
  `toggle_poi_selector`, `create_poi_from_click`, and the connect/disconnect
  groups used by `on_activate` / `on_deactivate`.

Numeric GUI quantities (positions, timestamps, shifts) are modelled as
rationals; the marker geometry, which involves `np.sqrt(2)`, is modelled
polymorphically over a field with the square root passed as a parameter and
instantiated at `Real.sqrt 2` in the theorems.

Python dictionaries are modelled as insertion-ordered association lists
(`List (String × _)`), matching CPython dict semantics.  Python exceptions
(`KeyError` from `d[k]`, `ValueError` from `np.max` of an empty array) are
modelled with `Except PyErr`.
-/

namespace OpxPoiManager

/-! ## Name validator (`NameValidator`, source lines 174-222) -/

/-- The three states of a Qt validator (`QValidator.State`). -/
inductive QVState where
  | Invalid
  | Intermediate
  | Acceptable
deriving DecidableEq, Repr

/-- Python regex word-character class `\w` for `str` patterns, as used by
`NameValidator.name_re = re.compile(r'([\w]+)')`.  Python classifies a
character as a word character iff it is alphanumeric in the Unicode sense
(`str.isalnum`: alphabetic, decimal, digit, or numeric) or an underscore.
This embedding is exact for all code points below U+0100 (ASCII and the
Latin-1 supplement: the feminine/masculine ordinal indicators U+00AA/U+00BA,
micro sign U+00B5, superscript digits U+00B2/U+00B3/U+00B9, vulgar fractions
U+00BC-U+00BE, and the Latin-1 letters U+00C0-U+00FF except the
multiplication sign U+00D7 and division sign U+00F7).  Code points at or
above U+0100 are outside the scope of this development; every theorem whose
truth depends on characters there carries a sub-U+0100 hypothesis. -/
def pyWordChar (c : Char) : Bool :=
  (('a' ≤ c && c ≤ 'z') || ('A' ≤ c && c ≤ 'Z') || ('0' ≤ c && c ≤ '9') || c = '_')
  || c.val = 0xAA || c.val = 0xB5 || c.val = 0xBA
  || (0xB2 ≤ c.val && c.val ≤ 0xB3) || c.val = 0xB9
  || (0xBC ≤ c.val && c.val ≤ 0xBE)
  || (0xC0 ≤ c.val && c.val ≤ 0xFF && c.val ≠ 0xD7 && c.val ≠ 0xF7)

/-- The alphabet `[A-Za-z0-9_]` named by the specification. -/
def asciiWordChar (c : Char) : Bool :=
  ('a' ≤ c && c ≤ 'z') || ('A' ≤ c && c ≤ 'Z') || ('0' ≤ c && c ≤ '9') || c = '_'

/-- `self.name_re.match(string)` returns the longest prefix of word
characters, or no match when the first character is not a word character.
We return the matched prefix (`match.group()`), empty list meaning no match. -/
def nameReMatch (s : List Char) : List Char :=
  s.takeWhile pyWordChar

/-- `NameValidator.validate(self, string, position)` (source lines 186-216).
`emptyAllowed` is the constructor option `empty_allowed`.  Returns the
`(state, string, position)` triple exactly as the source does. -/
def NameValidator.validate (emptyAllowed : Bool) (string : List Char) (position : Nat) :
    QVState × List Char × Nat :=
  if string.isEmpty then
    if emptyAllowed then (.Acceptable, [], position)
    else (.Intermediate, string, position)
  else
    let matched := nameReMatch string
    if matched.isEmpty then (.Invalid, [], position)
    else if matched = string then (.Acceptable, string, position)
    else (.Invalid, matched, position)

/-- `NameValidator.fixup(self, text)` (source lines 218-222): the first run of
word characters found anywhere in the text, or the empty string. -/
def NameValidator.fixup (text : List Char) : List Char :=
  match text with
  | [] => []
  | c :: rest =>
      if pyWordChar c then nameReMatch (c :: rest)
      else NameValidator.fixup rest

/-! ## POI marker geometry (`PoiMarker`, source lines 40-171)

The marker is a `pg.EllipseROI` subclass.  `setPos` places the bounding-box
corner (anchor); `setSize` sets the bounding-box width/height; the text label
is a separate item with its own position.  The geometry is polymorphic over a
field, with `np.sqrt(2)` passed as the parameter `sqrt2`; theorems
instantiate it with `Real.sqrt 2`. -/

/-- Pen styles (`default_pen` / `select_pen`, source lines 50-51). -/
structure Pen where
  color : String
  width : Nat
deriving DecidableEq, Repr

def PoiMarkerG.defaultPen : Pen := ⟨"#F0F", 2⟩

def PoiMarkerG.selectPen : Pen := ⟨"#FFF", 2⟩

/-- Geometric and visual state of one `PoiMarker`. -/
structure PoiMarkerG (α : Type) where
  /-- `self._position` — the POI centre. -/
  position : α × α
  /-- bounding-box size set through `setSize` / the constructor. -/
  sizeW : α
  sizeH : α
  /-- anchor (bounding-box corner) set through `setPos`. -/
  shapePos : α × α
  /-- the label item position. -/
  labelPos : α × α
  /-- `self._poi_name`, mirrored in the label text by `set_name`. -/
  labelText : String
  /-- `self._selected`. -/
  selected : Bool
  /-- current outline/label pen. -/
  pen : Pen

namespace PoiMarkerG

variable {α : Type} [Field α]

/-- `radius` property (source lines 83-85): `self.size()[0] / 2`. -/
def radius (m : PoiMarkerG α) : α := m.sizeW / 2

/-- `set_position` (source lines 117-129). -/
def setPosition (sqrt2 : α) (pos : α × α) (m : PoiMarkerG α) : PoiMarkerG α :=
  let r := m.radius
  let off := r / sqrt2
  { m with
    position := pos
    shapePos := (pos.1 - r, pos.2 - r)
    labelPos := (pos.1 + off, pos.2 + off) }

/-- `set_radius` (source lines 141-151). -/
def setRadius (sqrt2 : α) (r : α) (m : PoiMarkerG α) : PoiMarkerG α :=
  let off := r / sqrt2
  { m with
    sizeW := 2 * r
    sizeH := 2 * r
    shapePos := (m.position.1 - r, m.position.2 - r)
    labelPos := (m.position.1 + off, m.position.2 + off) }

/-- `set_name` (source lines 131-139). -/
def setName (name : String) (m : PoiMarkerG α) : PoiMarkerG α :=
  { m with labelText := name }

/-- `select` (source lines 153-161). -/
def select (m : PoiMarkerG α) : PoiMarkerG α :=
  { m with selected := true, pen := selectPen }

/-- `deselect` (source lines 163-171). -/
def deselect (m : PoiMarkerG α) : PoiMarkerG α :=
  { m with selected := false, pen := defaultPen }

/-- `__init__` (source lines 55-78): stores the position, calls the `ROI`
constructor with `pos=position, size=(2*radius, 2*radius)` (which places the
anchor at the raw position and the label at the item default origin), then
calls `set_position` to centre shape and label. -/
def init (sqrt2 : α) (position : α × α) (radius : α) (name : String) : PoiMarkerG α :=
  let m0 : PoiMarkerG α :=
    { position := position
      sizeW := 2 * radius
      sizeH := 2 * radius
      shapePos := position
      labelPos := (0, 0)
      labelText := name
      selected := false
      pen := defaultPen }
  m0.setPosition sqrt2 position

end PoiMarkerG

/-! ## Natural sort (`qudi.util.helpers.natural_sort`)

Modelled from the spec: the helper `natural_sort` lives in `qudi.util.helpers`,
which is not part of this repository; the spec describes it as
"natural sort order (alphanumeric-aware ordering, e.g. `poi2` before
`poi10`)".  We model the usual alphanumeric key: split the string into
alternating non-digit / digit runs, compare digit runs numerically and other
runs by code point, with a digit run sorting below a non-digit run at the
same position (a digit-initial string has an empty leading text segment). -/

/-- One token of the alphanumeric sort key. -/
inductive NTok where
  | str (cs : List Char) : NTok
  | num (n : Nat) : NTok
deriving DecidableEq, Repr

/-- Numeric value of a digit run. -/
def digitRunVal (cs : List Char) : Nat :=
  cs.foldl (fun a c => a * 10 + (c.toNat - '0'.toNat)) 0

/-- Tokenizer worker: `isDig` is the class of the run accumulated in `acc`
(kept in reverse order). -/
def natTokensGo : List Char → Bool → List Char → List NTok
  | [], isDig, acc =>
      if acc.isEmpty then []
      else [if isDig then NTok.num (digitRunVal acc.reverse) else NTok.str acc.reverse]
  | c :: cs, isDig, acc =>
      if c.isDigit = isDig then natTokensGo cs isDig (c :: acc)
      else
        (if acc.isEmpty then []
         else [if isDig then NTok.num (digitRunVal acc.reverse) else NTok.str acc.reverse])
        ++ natTokensGo cs c.isDigit [c]

/-- Alphanumeric sort key of a string. -/
def natKey (s : String) : List NTok :=
  match s.data with
  | [] => []
  | c :: cs => natTokensGo (c :: cs) c.isDigit []

/-- Code-point lexicographic order on character lists. -/
def charListLt : List Char → List Char → Bool
  | [], [] => false
  | [], _ :: _ => true
  | _ :: _, [] => false
  | a :: as', b :: bs' => a.val < b.val || (a = b && charListLt as' bs')

/-- Strict order on key tokens. -/
def ntokLt : NTok → NTok → Bool
  | .num a, .num b => a < b
  | .str a, .str b => charListLt a b
  | .num _, .str _ => true
  | .str _, .num _ => false

/-- Non-strict lexicographic order on token lists. -/
def natKeyLe : List NTok → List NTok → Bool
  | [], _ => true
  | _ :: _, [] => false
  | x :: xs, y :: ys => ntokLt x y || (x = y && natKeyLe xs ys)

/-- `natural_sort`: stable sort by the alphanumeric key. -/
def naturalSort (l : List String) : List String :=
  l.insertionSort (fun a b => natKeyLe (natKey a) (natKey b) = true)

/-! ## Orchestrator data model (`PoiManagerGui`, source lines 245-928) -/

/-- Every signal connection the orchestrator makes or tears down, one
constructor per `connect` site.  `markerPoiSelected id` is marker `id`'s
`sigPoiSelected` connection to `logic.set_active_poi` (made in
`_add_poi_marker`); `imageMouseClicked` is `roi_image.sigMouseClicked`
connected to `create_poi_from_click` (made in `toggle_poi_selector`).
The marker-internal `sigClicked` → `_notify_clicked_poi_name` wiring is
internal to the `PoiMarker` object and outside the orchestrator's
connect/disconnect bookkeeping, so it is not tracked here. -/
inductive Sig where
  -- __connect_internal_signals (source lines 521-549)
  | trackPeriodSpinEditingFinished
  | poiThresholdSpinEditingFinished
  | poiDiameterSpinEditingFinished
  | roiNameEditEditingFinished
  | poiNameEditReturnPressed
  | poiNametagEditEditingFinished
  | saveRoiTriggered
  | loadRoiTriggered
  | blinkCorrectionTriggered
  | poiSelectorToggled
  | restoreDefaultViewTriggered
  | roiMapViewTriggered
  | poiEditorViewTriggered
  | poiTrackerViewTriggered
  | autoPoisViewTriggered
  | sampleShiftViewTriggered
  | roiManagementViewTriggered
  | poiToolsViewTriggered
  -- __connect_update_signals_from_logic (source lines 426-440)
  | sigOptimizeTimerUpdated
  | sigPoiUpdated
  | sigActivePoiUpdated
  | sigRoiUpdated
  | sigOptimizeStateUpdated
  | sigThresholdUpdated
  | sigDiameterUpdated
  -- __connect_control_signals_to_logic (source lines 450-494)
  | newPoiTriggered
  | autoPoisClicked
  | delAllPoisClicked
  | gotoPoiTriggered
  | newRoiTriggered
  | refindPoiTriggered
  | getConfocalImageClicked
  | setPoiClicked
  | deleteLastPosClicked
  | manualUpdatePoiClicked
  | movePoiClicked
  | deletePoiClicked
  | activePoiComboActivated
  | gotoPoiAfterUpdateStateChanged
  | trackPoiTriggered
  | sigTrackPeriodChanged
  | sigPoiThresholdChanged
  | sigPoiDiameterChanged
  | sigRoiNameChanged
  | sigPoiNameChanged
  | sigPoiNameTagChanged
  | sigAddPoiByClick
  -- per-marker and per-mode connections
  | markerPoiSelected (id : Nat)
  | imageMouseClicked
deriving DecidableEq, Repr

/-- Backend commands emitted by the handlers modelled here. -/
inductive Cmd where
  | addPoiByClick (pos : ℚ × ℚ × ℚ)
deriving DecidableEq, Repr

/-- Mouse buttons of a click event. -/
inductive MouseButton where
  | left
  | right
  | middle
deriving DecidableEq, Repr

/-- Python exceptions raised by the embedded code. -/
inductive PyErr where
  | keyError (key : String)
  | valueError (msg : String)
deriving DecidableEq, Repr

/-- Orchestrator-level state of one `PoiMarker`, as read and written by
`PoiManagerGui`: identity (`id` distinguishes distinct Python objects),
`_poi_name`, the 2-D position, and the `_selected` flag.  The purely
geometric substate (shape anchor, label offset, pen, size — written through
`setSize`, `set_position`, `set_radius`, `select`, `deselect`) is modelled by
`PoiMarkerG` above and is not duplicated here; no orchestrator branch reads
it. -/
structure MarkerH where
  id : Nat
  poiName : String
  pos : ℚ × ℚ
  selected : Bool
deriving DecidableEq, Repr

/-- `active_poi_ComboBox` mirror: the item list and the current index
(`none` = Qt index −1).  Qt semantics used: `clear` resets to an empty list
with index −1; inserting items into an empty combo box makes the first item
current; non-editable `setCurrentText` sets the index only when the text
matches an item; `currentText` of index −1 is the empty string. -/
structure Combo where
  items : List String
  index : Option Nat
deriving DecidableEq, Repr

/-- First index of `t` in `l`. -/
def idxOfStr (t : String) : List String → Option Nat
  | [] => none
  | x :: xs => if x = t then some 0 else (idxOfStr t xs).map (· + 1)

namespace Combo

def currentText (c : Combo) : String :=
  match c.index with
  | some i => c.items.getD i ""
  | none => ""

def clear : Combo := ⟨[], none⟩

def addItems (l : List String) (c : Combo) : Combo :=
  ⟨c.items ++ l, if c.items.isEmpty && !l.isEmpty then some 0 else c.index⟩

def setCurrentText (t : String) (c : Combo) : Combo :=
  match idxOfStr t c.items with
  | some i => { c with index := some i }
  | none => c

/-- `setCurrentIndex(-1)`. -/
def setCurrentIndexNeg1 (c : Combo) : Combo := { c with index := none }

end Combo

/-- A 2-D numpy array of drift-history rows: `ncols` is `shape[1]`; each row
has length `ncols` (hypothesised in theorems where it matters). -/
structure HistoryArray where
  ncols : Nat
  rows : List (List ℚ)
deriving DecidableEq, Repr

/-- Column slice `history[:, j]`. -/
def HistoryArray.col (h : HistoryArray) (j : Nat) : List ℚ :=
  h.rows.map (fun r => r.getD j 0)

/-- The slice of the backend (`PoiManagerLogic`, an external qudi module not
in this repository) that the embedded handlers read.  Its accessors are
modelled as total functions of this record. -/
structure Logic where
  poiNames : List String
  poiPositions : List (String × (ℚ × ℚ × ℚ))
  activePoi : String
  roiOrigin : ℚ × ℚ × ℚ
  roiPosHistory : HistoryArray
deriving DecidableEq, Repr

/-- Association-list lookup (Python `k in d` / `d.get`). -/
def assocLookup {β : Type} (k : String) : List (String × β) → Option β
  | [] => none
  | (k', v) :: rest => if k' = k then some v else assocLookup k rest

/-- Python `d.pop(k)` / `del d[k]` (keys are unique in a dict, so dropping
all occurrences agrees with removing the one entry). -/
def assocErase {β : Type} (k : String) : List (String × β) → List (String × β)
  | [] => []
  | p :: rest => if p.1 = k then assocErase k rest else p :: assocErase k rest

/-- Python `d[k] = v`: replace in place when the key exists, else append. -/
def assocSet {β : Type} (k : String) (v : β) : List (String × β) → List (String × β)
  | [] => [(k, v)]
  | (k', v') :: rest => if k' = k then (k, v) :: rest else (k', v') :: assocSet k v rest

/-- Python `d[k]`, raising `KeyError` when absent. -/
def dictGet {β : Type} (k : String) (l : List (String × β)) : Except PyErr β :=
  match assocLookup k l with
  | some v => Except.ok v
  | none => Except.error (PyErr.keyError k)

/-- `np.max` of a 1-D array: raises `ValueError` on an empty array. -/
def npMax : List ℚ → Except PyErr ℚ
  | [] => Except.error (PyErr.valueError "zero-size array to reduction operation maximum")
  | x :: xs => Except.ok (xs.foldl max x)

/-- Mutable state of `PoiManagerGui` read or written by the embedded
handlers.  Widget state that no claim mentions (line-edit texts, spin-box
values, dock visibility, progress bar) is elided; the `poi_coords_label` is
modelled as the raw position triple it renders (the `ScaledFloat` formatting
is display-only). -/
structure GuiState where
  /-- `self._markers` (insertion-ordered dict). -/
  markers : List (String × MarkerH)
  /-- `active_poi_ComboBox`. -/
  combo : Combo
  /-- live signal connections. -/
  conns : List Sig
  /-- `self.__poi_selector_active`. -/
  selectorActive : Bool
  /-- `poi_selector_Action.isChecked()`. -/
  selectorChecked : Bool
  /-- cursor shape on the scan image (`CrossCursor` = true). -/
  crossCursor : Bool
  /-- items attached to the scan-image view (one entry per attached marker,
  keyed by marker id; the marker and its label are attached and removed
  together). -/
  viewItems : List Nat
  /-- allocator for marker identities. -/
  nextId : Nat
  /-- `x_shift_plot` data `(x values, y values)`. -/
  xShiftData : List ℚ × List ℚ
  yShiftData : List ℚ × List ℚ
  zShiftData : List ℚ × List ℚ
  /-- unit label of the sample-shift time axis. -/
  timeUnit : String
  /-- position rendered in `poi_coords_label`. -/
  poiCoords : ℚ × ℚ × ℚ
  /-- messages passed to `self.log.error`. -/
  errorLog : List String
deriving DecidableEq, Repr

/-- Fresh state at the top of `on_activate` (`self._markers = dict()`,
nothing connected, empty combo box, initial `[0]/[0]` plots elided to the
empty pairs, time axis initialised to seconds). -/
def GuiState.init : GuiState :=
  { markers := []
    combo := Combo.clear
    conns := []
    selectorActive := false
    selectorChecked := false
    crossCursor := false
    viewItems := []
    nextId := 0
    xShiftData := ([], [])
    yShiftData := ([], [])
    zShiftData := ([], [])
    timeUnit := "s"
    poiCoords := (0, 0, 0)
    errorLog := [] }

/-- `Logic.get_poi_position(name)`; the backend (outside this repository) is
modelled as total, defaulting to the origin for unknown names. -/
def Logic.getPoiPosition (l : Logic) (name : String) : ℚ × ℚ × ℚ :=
  (assocLookup name l.poiPositions).getD (0, 0, 0)

namespace GuiState

/-- Mark the marker keyed `name` selected (`PoiMarker.select`). -/
def selectMarkerList (name : String) (ms : List (String × MarkerH)) :
    List (String × MarkerH) :=
  ms.map (fun p => (p.1, if p.1 = name then { p.2 with selected := true } else p.2))

/-- The deselect loop of `update_active_poi` (source lines 704-708): deselect
the first selected marker and stop (`break`). -/
def deselectFirstSelected : List (String × MarkerH) → List (String × MarkerH)
  | [] => []
  | (k, m) :: rest =>
      if m.selected then (k, { m with selected := false }) :: rest
      else (k, m) :: deselectFirstSelected rest

/-- `_add_poi_marker` (source lines 904-920).  The marker is constructed with
`radius = optimise_xy_size / sqrt(2)` (geometry, in `PoiMarkerG.init`),
attached to the view, and its `sigPoiSelected` is connected to
`logic.set_active_poi`. -/
def addPoiMarker (s : GuiState) (name : String) (position : ℚ × ℚ × ℚ) : GuiState :=
  if name ≠ "" then
    if (assocLookup name s.markers).isSome then
      { s with errorLog :=
          s.errorLog ++ ["Unable to add POI marker to ROI image. POI marker already present."] }
    else
      let m : MarkerH :=
        { id := s.nextId, poiName := name, pos := (position.1, position.2.1), selected := false }
      { s with
        viewItems := s.viewItems ++ [s.nextId]
        conns := s.conns ++ [Sig.markerPoiSelected s.nextId]
        markers := s.markers ++ [(name, m)]
        nextId := s.nextId + 1 }
  else s

/-- `_remove_poi_marker` (source lines 922-928): detach marker and label from
the view, disconnect its `sigPoiSelected`, drop it from the dict; silently do
nothing for an unknown name. -/
def removePoiMarker (s : GuiState) (name : String) : GuiState :=
  match assocLookup name s.markers with
  | some m =>
      { s with
        viewItems := s.viewItems.filter (· ≠ m.id)
        conns := s.conns.filter (· ≠ Sig.markerPoiSelected m.id)
        markers := assocErase name s.markers }
  | none => s

/-- `marker.set_position(poi_dict[name])` applied to the marker keyed
`name`. -/
def setMarkerPosition (s : GuiState) (name : String) (pos : ℚ × ℚ) : GuiState :=
  { s with markers :=
      s.markers.map (fun p => (p.1, if p.1 = name then { p.2 with pos := pos } else p.2)) }

/-- `update_poi(old_name, new_name, position)` (source lines 664-699).
Signals blocked around the combo rebuild are modelled as no-ops (this model
does not auto-dispatch signals).  `self._markers[...]` subscripts raise
`KeyError` when the key is absent, exactly as in Python. -/
def updatePoi (logic : Logic) (oldName newName : String) (position : ℚ × ℚ × ℚ)
    (s : GuiState) : Except PyErr GuiState := do
  -- Handle changed names: rebuild the combo box from the backend name list
  let s :=
    if oldName ≠ newName then
      let textActivePoi := s.combo.currentText
      let poiNames := naturalSort logic.poiNames
      let c := Combo.clear.addItems poiNames
      let c :=
        if textActivePoi = oldName then c.setCurrentText newName
        else c.setCurrentText textActivePoi
      { s with combo := c }
    else s
  -- Delete/add/update POI marker to image
  let s ←
    if oldName = "" then
      pure (s.addPoiMarker newName position)
    else if newName = "" then
      pure (s.removePoiMarker oldName)
    else do
      -- set_name(new_name); re-key; setSize (geometry, elided); set_position(position[:2])
      let m ← dictGet oldName s.markers
      let m := { m with poiName := newName, pos := (position.1, position.2.1) }
      pure { s with markers := assocSet newName m (assocErase oldName s.markers) }
  let activePoi := s.combo.currentText
  if activePoi ≠ "" then do
    let _ ← dictGet activePoi s.markers
    pure { s with markers := selectMarkerList activePoi s.markers }
  else
    pure s

/-- `update_active_poi(name)` (source lines 701-730). -/
def updateActivePoi (logic : Logic) (name : String) (s : GuiState) :
    Except PyErr GuiState :=
  let s := { s with markers := deselectFirstSelected s.markers }
  let c :=
    if name = "" then s.combo.setCurrentIndexNeg1
    else s.combo.setCurrentText name
  let s := { s with combo := c }
  let activePoiPos := if name = "" then ((0 : ℚ), (0 : ℚ), (0 : ℚ)) else logic.getPoiPosition name
  let s := { s with poiCoords := activePoiPos }
  if (assocLookup name s.markers).isSome then
    -- set_radius (geometry, elided); select
    Except.ok { s with markers := selectMarkerList name s.markers }
  else
    Except.ok s

/-- `_update_pois(poi_dict)` (source lines 861-902).  The Python
`set.difference` results are iterated in unspecified order and deduplicated;
we take the deterministic filtered-and-deduplicated lists (removals commute,
and additions of distinct names commute up to id assignment). -/
def updatePois (logic : Logic) (poiDict : List (String × (ℚ × ℚ × ℚ)))
    (s : GuiState) : Except PyErr GuiState := do
  let poiNames := naturalSort (poiDict.map Prod.fst)
  let s := { s with combo := Combo.clear.addItems poiNames }
  let oldPoiNames := s.markers.map Prod.fst
  let namesToDelete := (oldPoiNames.filter (fun n => ¬ n ∈ poiNames)).dedup
  let namesToAdd := (poiNames.filter (fun n => ¬ n ∈ oldPoiNames)).dedup
  -- Delete markers accordingly
  let s := namesToDelete.foldl removePoiMarker s
  -- Update positions of all remaining markers (size update is geometry, elided)
  let s ← s.markers.foldlM
    (fun (st : GuiState) (p : String × MarkerH) => do
      let pos ← dictGet p.1 poiDict
      pure (st.setMarkerPosition p.1 (pos.1, pos.2.1)))
    s
  -- Add new markers
  let s ← namesToAdd.foldlM
    (fun (st : GuiState) (n : String) => do
      let pos ← dictGet n poiDict
      pure (st.addPoiMarker n pos))
    s
  -- If there is no active POI, set the combobox to nothing (-1)
  let activePoi := logic.activePoi
  if activePoi ∈ poiNames then do
    let s := { s with combo := s.combo.setCurrentText activePoi }
    let _ ← dictGet activePoi s.markers
    let s := { s with markers := selectMarkerList activePoi s.markers }
    let activePoiPos ← dictGet activePoi poiDict
    pure { s with poiCoords := activePoiPos }
  else
    pure { s with combo := s.combo.setCurrentIndexNeg1 }

/-- `_update_roi_history(history)` (source lines 834-859). -/
def updateRoiHistory (s : GuiState) (history : HistoryArray) :
    Except PyErr GuiState := do
  if history.ncols ≠ 4 then
    return { s with errorLog :=
        s.errorLog ++ ["ROI history must be an array of type float[][4]."] }
  let maxTime ← npMax (history.col 0)
  let scaled :=
    if maxTime < 300 then ("s", history.col 0)
    else if maxTime < 7200 then ("min", (history.col 0).map (· / 60))
    else if maxTime < 172800 then ("h", (history.col 0).map (· / 3600))
    else ("d", (history.col 0).map (· / 86400))
  return { s with
    timeUnit := scaled.1
    xShiftData := (scaled.2, history.col 1)
    yShiftData := (scaled.2, history.col 2)
    zShiftData := (scaled.2, history.col 3) }

/-- `toggle_poi_selector(is_active)` (source lines 583-597). -/
def togglePoiSelector (isActive : Bool) (s : GuiState) : GuiState :=
  let s :=
    if isActive ≠ s.selectorChecked then { s with selectorChecked := isActive } else s
  let s :=
    if isActive ≠ s.selectorActive then
      if isActive then
        { s with conns := s.conns ++ [Sig.imageMouseClicked], crossCursor := true }
      else
        { s with conns := s.conns.filter (· ≠ Sig.imageMouseClicked), crossCursor := false }
    else s
  { s with selectorActive := isActive }

/-- `create_poi_from_click(pos, button)` (source lines 610-620): commands
that reach the backend.  The emitted `sigAddPoiByClick` reaches
`logic.add_poi` only through its queued connection. -/
def createPoiFromClick (logic : Logic) (s : GuiState) (pos : ℚ × ℚ)
    (button : MouseButton) : List Cmd :=
  if button ≠ MouseButton.left then []
  else
    -- Z position from ROI origin, X and Y positions from click event
    let newPos := (pos.1, pos.2, logic.roiOrigin.2.2)
    if Sig.sigAddPoiByClick ∈ s.conns then [Cmd.addPoiByClick newPos] else []

/-- A mouse click on the scan image: `sigMouseClicked` invokes
`create_poi_from_click` only while its connection (made in
`toggle_poi_selector`) is live. -/
def scanImageClicked (logic : Logic) (s : GuiState) (pos : ℚ × ℚ)
    (button : MouseButton) : List Cmd :=
  if Sig.imageMouseClicked ∈ s.conns then s.createPoiFromClick logic pos button
  else []

end GuiState

/-! ## Signal connect / disconnect groups and lifecycle (source lines 288-341, 426-568) -/

/-- The connections made by `__connect_internal_signals` (source lines
521-549), in source order.  Note `auto_pois_view_Action.triggered` is
connected twice (lines 539-542). -/
def internalSignalConnects : List Sig :=
  [Sig.trackPeriodSpinEditingFinished,
   Sig.poiThresholdSpinEditingFinished,
   Sig.poiDiameterSpinEditingFinished,
   Sig.roiNameEditEditingFinished,
   Sig.poiNameEditReturnPressed,
   Sig.poiNametagEditEditingFinished,
   Sig.saveRoiTriggered,
   Sig.loadRoiTriggered,
   Sig.blinkCorrectionTriggered,
   Sig.poiSelectorToggled,
   Sig.restoreDefaultViewTriggered,
   Sig.roiMapViewTriggered,
   Sig.poiEditorViewTriggered,
   Sig.poiTrackerViewTriggered,
   Sig.autoPoisViewTriggered,
   Sig.autoPoisViewTriggered,
   Sig.sampleShiftViewTriggered,
   Sig.roiManagementViewTriggered,
   Sig.poiToolsViewTriggered]

/-- The signals fully disconnected by `__disconnect_internal_signals`
(source lines 551-568); `signal.disconnect()` tears down every connection of
that signal. -/
def internalSignalDisconnects : List Sig :=
  [Sig.trackPeriodSpinEditingFinished,
   Sig.roiNameEditEditingFinished,
   Sig.poiNameEditReturnPressed,
   Sig.poiNametagEditEditingFinished,
   Sig.saveRoiTriggered,
   Sig.loadRoiTriggered,
   Sig.blinkCorrectionTriggered,
   Sig.poiSelectorToggled,
   Sig.restoreDefaultViewTriggered,
   Sig.roiMapViewTriggered,
   Sig.poiEditorViewTriggered,
   Sig.poiTrackerViewTriggered,
   Sig.autoPoisViewTriggered,
   Sig.sampleShiftViewTriggered,
   Sig.roiManagementViewTriggered,
   Sig.poiToolsViewTriggered]

/-- `__connect_update_signals_from_logic` (source lines 426-440). -/
def updateSignalConnects : List Sig :=
  [Sig.sigOptimizeTimerUpdated,
   Sig.sigPoiUpdated,
   Sig.sigActivePoiUpdated,
   Sig.sigRoiUpdated,
   Sig.sigOptimizeStateUpdated,
   Sig.sigThresholdUpdated,
   Sig.sigDiameterUpdated]

/-- `__disconnect_update_signals_from_logic` (source lines 442-448). -/
def updateSignalDisconnects : List Sig :=
  [Sig.sigOptimizeTimerUpdated,
   Sig.sigPoiUpdated,
   Sig.sigActivePoiUpdated,
   Sig.sigRoiUpdated,
   Sig.sigOptimizeStateUpdated]

/-- `__connect_control_signals_to_logic` (source lines 450-494). -/
def controlSignalConnects : List Sig :=
  [Sig.newPoiTriggered,
   Sig.autoPoisClicked,
   Sig.delAllPoisClicked,
   Sig.gotoPoiTriggered,
   Sig.newRoiTriggered,
   Sig.refindPoiTriggered,
   Sig.getConfocalImageClicked,
   Sig.setPoiClicked,
   Sig.deleteLastPosClicked,
   Sig.manualUpdatePoiClicked,
   Sig.movePoiClicked,
   Sig.deletePoiClicked,
   Sig.activePoiComboActivated,
   Sig.gotoPoiAfterUpdateStateChanged,
   Sig.trackPoiTriggered,
   Sig.sigTrackPeriodChanged,
   Sig.sigPoiThresholdChanged,
   Sig.sigPoiDiameterChanged,
   Sig.sigRoiNameChanged,
   Sig.sigPoiNameChanged,
   Sig.sigPoiNameTagChanged,
   Sig.sigAddPoiByClick]

/-- The non-marker signals disconnected by
`__disconnect_control_signals_to_logic` (source lines 496-516). -/
def controlSignalDisconnects : List Sig :=
  [Sig.newPoiTriggered,
   Sig.gotoPoiTriggered,
   Sig.newRoiTriggered,
   Sig.refindPoiTriggered,
   Sig.getConfocalImageClicked,
   Sig.setPoiClicked,
   Sig.deleteLastPosClicked,
   Sig.manualUpdatePoiClicked,
   Sig.movePoiClicked,
   Sig.deletePoiClicked,
   Sig.activePoiComboActivated,
   Sig.gotoPoiAfterUpdateStateChanged,
   Sig.trackPoiTriggered,
   Sig.sigTrackPeriodChanged,
   Sig.sigPoiThresholdChanged,
   Sig.sigPoiDiameterChanged,
   Sig.sigRoiNameChanged,
   Sig.sigPoiNameChanged,
   Sig.sigPoiNameTagChanged,
   Sig.sigAddPoiByClick]

/-- Append the connections of one connect group. -/
def connectSigs (l : List Sig) (s : GuiState) : GuiState :=
  { s with conns := s.conns ++ l }

/-- Tear down every connection of every signal in `l`. -/
def disconnectSigs (l : List Sig) (s : GuiState) : GuiState :=
  { s with conns := s.conns.filter (fun c => ¬ c ∈ l) }

/-- `__disconnect_control_signals_to_logic` (source lines 496-519): the named
signals, then `marker.sigPoiSelected.disconnect()` for every live marker. -/
def GuiState.disconnectControlSignalsToLogic (s : GuiState) : GuiState :=
  let s := disconnectSigs controlSignalDisconnects s
  { s with conns :=
      s.markers.foldl (fun cs p => cs.filter (· ≠ Sig.markerPoiSelected p.2.id)) s.conns }

/-- `on_activate` (source lines 288-330), restricted to the state modelled
here: reset the marker dict, seed the drift-history plot
(`__init_roi_history_plot` calls `_update_roi_history(logic.roi_pos_history)`),
populate markers and dropdown (`_update_pois(logic.poi_positions)`), then
connect the three signal groups.  Window construction, dock layout,
validators, scan-image seeding, refocus-timer seeding and the name/nametag/
threshold/diameter display writes touch only elided display state. -/
def GuiState.onActivate (logic : Logic) : Except PyErr GuiState := do
  let s := GuiState.init
  let s ← s.updateRoiHistory logic.roiPosHistory
  let s ← GuiState.updatePois logic logic.poiPositions s
  let s := connectSigs internalSignalConnects s
  let s := connectSigs updateSignalConnects s
  let s := connectSigs controlSignalConnects s
  pure s

/-- `on_deactivate` (source lines 332-341): disable the POI selector, then
the three disconnect groups, then close the window (elided). -/
def GuiState.onDeactivate (s : GuiState) : GuiState :=
  let s := s.togglePoiSelector false
  let s := s.disconnectControlSignalsToLogic
  let s := disconnectSigs updateSignalDisconnects s
  let s := disconnectSigs internalSignalDisconnects s
  s

/-! ## Notification sequences (for the active-POI selection invariant)

A run of backend notifications delivered to the orchestrator.  Each event
carries the backend state at delivery time (the handlers read
`self._poi_manager_logic()` live). -/

/-- One backend notification handled by the orchestrator. -/
inductive GuiEvent where
  /-- `sigPoiUpdated` → `update_poi`. -/
  | poiUpdated (logic : Logic) (oldName newName : String) (position : ℚ × ℚ × ℚ)
  /-- `sigActivePoiUpdated` → `update_active_poi`. -/
  | activePoiUpdated (logic : Logic) (name : String)
  /-- a `pois` entry of `sigRoiUpdated` → `_update_pois`. -/
  | poisUpdated (logic : Logic) (poiDict : List (String × (ℚ × ℚ × ℚ)))

/-- Dispatch one notification. -/
def stepEvent : GuiEvent → GuiState → Except PyErr GuiState
  | .poiUpdated logic o n p, s => GuiState.updatePoi logic o n p s
  | .activePoiUpdated logic n, s => GuiState.updateActivePoi logic n s
  | .poisUpdated logic d, s => GuiState.updatePois logic d s

/-- The marker-dict key list. -/
def keysOf (s : GuiState) : List String := s.markers.map Prod.fst

/-- The `sigPoiSelected` connection tag of a marker entry. -/
def markerConnOf (p : String × MarkerH) : Sig := Sig.markerPoiSelected p.2.id

/-- Two lists with the same elements. -/
def sameSet (l₁ l₂ : List String) : Prop := l₁ ⊆ l₂ ∧ l₂ ⊆ l₁

instance (l₁ l₂ : List String) : Decidable (sameSet l₁ l₂) := by
  unfold sameSet; infer_instance

/-- A notification payload consistent with the GUI marker set: the backend
name list read during a combo rebuild matches the marker keys as updated by
the event, a rename's source name is present and its target absent, and an
added name is not already present. -/
def eventConsistent : GuiEvent → GuiState → Prop
  | .poiUpdated logic o n _, s =>
      (o = "" ∧ n = "") ∨
      (o = "" ∧ n ≠ "" ∧ n ∉ keysOf s ∧ sameSet logic.poiNames (n :: keysOf s)) ∨
      (o ≠ "" ∧ n = "" ∧ sameSet logic.poiNames ((keysOf s).filter (· ≠ o))) ∨
      (o ≠ "" ∧ n ≠ "" ∧ o ≠ n ∧ o ∈ keysOf s ∧ n ∉ keysOf s ∧
        sameSet logic.poiNames (n :: (keysOf s).filter (· ≠ o))) ∨
      (o ≠ "" ∧ o = n ∧ o ∈ keysOf s)
  | .activePoiUpdated _ _, _ => True
  | .poisUpdated _ _, _ => True

instance (e : GuiEvent) (s : GuiState) : Decidable (eventConsistent e s) := by
  cases e <;> (unfold eventConsistent; infer_instance)

/-- A run of notifications in which every event is consistent with the state
it is delivered to and every handler returns normally. -/
inductive ConsistentSteps : GuiState → List GuiEvent → GuiState → Prop where
  | nil (s : GuiState) : ConsistentSteps s [] s
  | cons (e : GuiEvent) (es : List GuiEvent) (s s₁ s₂ : GuiState) :
      eventConsistent e s → stepEvent e s = Except.ok s₁ →
      ConsistentSteps s₁ es s₂ → ConsistentSteps s (e :: es) s₂

/-- The selection invariant maintained across consistent
`update_poi` / `update_active_poi` runs: marker keys are distinct and
non-empty, every selected marker is keyed by the dropdown's current text
(hence, keys being distinct, at most one marker is selected), and every
marker key is listed in the dropdown. -/
def selInv (s : GuiState) : Prop :=
  (keysOf s).Nodup ∧
  "" ∉ keysOf s ∧
  (∀ p ∈ s.markers, p.2.selected → p.1 = s.combo.currentText) ∧
  (∀ k ∈ keysOf s, k ∈ s.combo.items)

instance (s : GuiState) : Decidable (selInv s) := by
  unfold selInv; infer_instance

/-- `true` on the two incremental POI notifications (`update_poi`,
`update_active_poi`); `false` on a full reconciliation. -/
def isIncremental : GuiEvent → Bool
  | GuiEvent.poisUpdated _ _ => false
  | _ => true

/-- `true` iff the connection is a marker `sigPoiSelected` connection. -/
def isMarkerConn : Sig → Bool
  | Sig.markerPoiSelected _ => true
  | _ => false

/-! ## Witness fixtures (concrete inputs used by the witness theorems) -/

/-- A concrete backend state: one POI `"A"` at `(1, 2, 3)`, active, ROI
origin `(0, 0, 9)`, a single drift sample at `t = 1`. -/
def wLogicA : Logic := ⟨["A"], [("A", (1, 2, 3))], "A", (0, 0, 9), ⟨4, [[1, 0, 0, 0]]⟩⟩

/-- The GUI state `on_activate` produces for `wLogicA` (checked by `rfl`
where it is used). -/
def wActivatedState : GuiState :=
  { markers := [("A", { id := 0, poiName := "A", pos := (1, 2), selected := true })]
    combo := ⟨["A"], some 0⟩
    conns := [Sig.markerPoiSelected 0] ++ internalSignalConnects
        ++ updateSignalConnects ++ controlSignalConnects
    selectorActive := false
    selectorChecked := false
    crossCursor := false
    viewItems := [0]
    nextId := 1
    xShiftData := ([1], [0])
    yShiftData := ([1], [0])
    zShiftData := ([1], [0])
    timeUnit := "s"
    poiCoords := (1, 2, 3)
    errorLog := [] }

/-- Backend mapping used by the reconciliation witness: `{B, C}`. -/
def wDictC4 : List (String × (ℚ × ℚ × ℚ)) := [("B", (5, 6, 7)), ("C", (8, 9, 10))]

/-- Backend state for the reconciliation witness. -/
def wLogicC4 : Logic := ⟨["B", "C"], wDictC4, "B", (0, 0, 0), ⟨4, [[1, 0, 0, 0]]⟩⟩

/-- GUI state with markers `{A, B}` for the reconciliation witness. -/
def wStateC4 : GuiState :=
  { GuiState.init with
    markers := [("A", ⟨0, "A", (1, 1), false⟩), ("B", ⟨1, "B", (2, 2), true⟩)]
    conns := [Sig.markerPoiSelected 0, Sig.markerPoiSelected 1]
    viewItems := [0, 1]
    nextId := 2 }

/-- The state `_update_pois` produces from `wStateC4` under `wDictC4`
(checked by `rfl` where it is used). -/
def wReconC4 : GuiState :=
  { markers := [("B", { id := 1, poiName := "B", pos := (5, 6), selected := true }),
                ("C", { id := 2, poiName := "C", pos := (8, 9), selected := false })]
    combo := ⟨["B", "C"], some 0⟩
    conns := [Sig.markerPoiSelected 1, Sig.markerPoiSelected 2]
    selectorActive := false
    selectorChecked := false
    crossCursor := false
    viewItems := [1, 2]
    nextId := 3
    xShiftData := ([], [])
    yShiftData := ([], [])
    zShiftData := ([], [])
    timeUnit := "s"
    poiCoords := (5, 6, 7)
    errorLog := [] }

/-- First event of the C1 witness run: the backend reports a new POI `"A"`
(`update_poi("", "A", (1, 2, 3))`). -/
def wEvC1add : GuiEvent :=
  GuiEvent.poiUpdated ⟨["A"], [("A", (1, 2, 3))], "A", (0, 0, 0), ⟨4, [[0, 0, 0, 0]]⟩⟩
    "" "A" (1, 2, 3)

/-- Second event of the C1 witness run: the backend activates `"A"`
(`update_active_poi("A")`). -/
def wEvC1act : GuiEvent :=
  GuiEvent.activePoiUpdated ⟨["A"], [("A", (1, 2, 3))], "A", (0, 0, 0), ⟨4, [[0, 0, 0, 0]]⟩⟩
    "A"

/-- The GUI state after `wEvC1add` from the initial state (checked by `rfl`
where it is used). -/
def wC1Mid : GuiState :=
  { markers := [("A", { id := 0, poiName := "A", pos := (1, 2), selected := true })]
    combo := ⟨["A"], some 0⟩
    conns := [Sig.markerPoiSelected 0]
    selectorActive := false
    selectorChecked := false
    crossCursor := false
    viewItems := [0]
    nextId := 1
    xShiftData := ([], [])
    yShiftData := ([], [])
    zShiftData := ([], [])
    timeUnit := "s"
    poiCoords := (0, 0, 0)
    errorLog := [] }

/-- The GUI state after the full C1 witness run (checked by `rfl` where it
is used). -/
def wC1Final : GuiState := { wC1Mid with poiCoords := (1, 2, 3) }

/-! ## Supporting lemmas -/

lemma updateRoiHistory_badWidth (s : GuiState) (h : HistoryArray) (hw : h.ncols ≠ 4) :
    s.updateRoiHistory h = Except.ok
      { s with errorLog := s.errorLog ++ ["ROI history must be an array of type float[][4]."] } := by
  unfold GuiState.updateRoiHistory
  simp [hw]
  rfl

lemma updateActivePoi_isOk (logic : Logic) (name : String) (s : GuiState) :
    ∃ s₁, GuiState.updateActivePoi logic name s = Except.ok s₁ := by
  unfold GuiState.updateActivePoi
  dsimp only
  split
  · exact ⟨_, rfl⟩
  · exact ⟨_, rfl⟩

/-- Closed form of `toggle_poi_selector`'s effect on the live connections. -/
lemma togglePoiSelector_conns (b : Bool) (s : GuiState) :
    (s.togglePoiSelector b).conns =
      if b = s.selectorActive then s.conns
      else if b then s.conns ++ [Sig.imageMouseClicked]
      else s.conns.filter (· ≠ Sig.imageMouseClicked) := by
  unfold GuiState.togglePoiSelector
  rcases b <;> rcases hA : s.selectorActive <;> rcases hC : s.selectorChecked <;> simp [hA, hC]

section AssocLemmas

variable {β : Type}

@[simp] lemma assocLookup_nil (n : String) : assocLookup (β := β) n [] = none := rfl

@[simp] lemma assocLookup_cons (n : String) (p : String × β) (l : List (String × β)) :
    assocLookup n (p :: l) = if p.1 = n then some p.2 else assocLookup n l := rfl

@[simp] lemma assocErase_nil (k : String) : assocErase (β := β) k [] = [] := rfl

@[simp] lemma assocErase_cons (k : String) (p : String × β) (l : List (String × β)) :
    assocErase k (p :: l) = if p.1 = k then assocErase k l else p :: assocErase k l := rfl

lemma assocLookup_isSome_of_mem_keys (n : String) (l : List (String × β))
    (h : n ∈ l.map Prod.fst) : (assocLookup n l).isSome := by
  induction l with
  | nil => simp at h
  | cons p rest ih =>
      unfold assocLookup
      by_cases hp : p.1 = n
      · simp [hp]
      · simp [hp]
        rcases List.mem_map.mp h with ⟨q, hq, hqn⟩
        rcases List.mem_cons.mp hq with rfl | hq'
        · exact absurd hqn hp
        · exact ih (List.mem_map.mpr ⟨q, hq', hqn⟩)

lemma mem_keys_of_assocLookup_isSome (n : String) (l : List (String × β))
    (h : (assocLookup n l).isSome) : n ∈ l.map Prod.fst := by
  induction l with
  | nil => simp [assocLookup] at h
  | cons p rest ih =>
      unfold assocLookup at h
      by_cases hp : p.1 = n
      · simp [← hp]
      · simp [hp] at h
        simp [ih h]

lemma assocLookup_erase_ne (n n' : String) (l : List (String × β)) (h : ¬ n = n') :
    assocLookup n (assocErase n' l) = assocLookup n l := by
  induction l with
  | nil => rfl
  | cons p rest ih =>
      rw [assocErase_cons]
      by_cases hp : p.1 = n'
      · rw [if_pos hp, assocLookup_cons]
        have hpn : ¬ p.1 = n := by rw [hp]; exact fun hc => h hc.symm
        rw [if_neg hpn]
        exact ih
      · rw [if_neg hp, assocLookup_cons, assocLookup_cons]
        by_cases hpn : p.1 = n
        · rw [if_pos hpn, if_pos hpn]
        · rw [if_neg hpn, if_neg hpn]
          exact ih

lemma assocLookup_erase_self (n : String) (l : List (String × β)) :
    assocLookup n (assocErase n l) = none := by
  induction l with
  | nil => rfl
  | cons p rest ih =>
      rw [assocErase_cons]
      by_cases hp : p.1 = n
      · rw [if_pos hp]
        exact ih
      · rw [if_neg hp, assocLookup_cons, if_neg hp]
        exact ih

lemma assocLookup_keyed_map (n : String) (f : String → β → β) (l : List (String × β)) :
    assocLookup n (l.map (fun p => (p.1, f p.1 p.2))) = (assocLookup n l).map (f n) := by
  induction l with
  | nil => rfl
  | cons p rest ih =>
      by_cases hp : p.1 = n
      · simp [assocLookup, hp]
      · simp [assocLookup, hp, ih]

lemma keys_keyed_map (f : String → β → β) (l : List (String × β)) :
    (l.map (fun p => (p.1, f p.1 p.2))).map Prod.fst = l.map Prod.fst := by
  rw [List.map_map]
  rfl

lemma assocLookup_append (n : String) (l₁ l₂ : List (String × β)) :
    assocLookup n (l₁ ++ l₂) =
      match assocLookup n l₁ with
      | some v => some v
      | none => assocLookup n l₂ := by
  induction l₁ with
  | nil => rfl
  | cons p rest ih =>
      by_cases hp : p.1 = n
      · simp [assocLookup, hp]
      · simp [assocLookup, hp, ih]

lemma assocLookup_assocSet_self (n : String) (v : β) (l : List (String × β)) :
    assocLookup n (assocSet n v l) = some v := by
  induction l with
  | nil => simp [assocSet, assocLookup]
  | cons p rest ih =>
      by_cases hp : p.1 = n
      · simp [assocSet, hp, assocLookup]
      · simp [assocSet, hp, assocLookup, ih]

lemma assocLookup_assocSet_ne (n k : String) (v : β) (l : List (String × β))
    (h : n ≠ k) : assocLookup n (assocSet k v l) = assocLookup n l := by
  have hkn : ¬ k = n := fun hc => h hc.symm
  induction l with
  | nil =>
      show assocLookup n [(k, v)] = assocLookup n []
      rw [assocLookup_cons, if_neg hkn, assocLookup_nil]
  | cons p rest ih =>
      show assocLookup n (if p.1 = k then (k, v) :: rest else p :: assocSet k v rest)
        = assocLookup n (p :: rest)
      by_cases hp : p.1 = k
      · rw [if_pos hp, assocLookup_cons, assocLookup_cons]
        have hpn : ¬ p.1 = n := by rw [hp]; exact hkn
        rw [if_neg hkn, if_neg hpn]
      · rw [if_neg hp, assocLookup_cons, assocLookup_cons]
        by_cases hpn : p.1 = n
        · rw [if_pos hpn, if_pos hpn]
        · rw [if_neg hpn, if_neg hpn]
          exact ih

lemma assocLookup_mem (n : String) (l : List (String × β)) (v : β)
    (h : assocLookup n l = some v) : (n, v) ∈ l := by
  induction l with
  | nil => simp at h
  | cons p rest ih =>
      rw [assocLookup_cons] at h
      by_cases hp : p.1 = n
      · rw [if_pos hp] at h
        have hv := Option.some.inj h
        have : p = (n, v) := by
          rcases p with ⟨a, b⟩
          simp at hp hv
          rw [hp, hv]
        rw [← this]
        exact List.mem_cons_self p rest
      · rw [if_neg hp] at h
        exact List.mem_cons_of_mem p (ih h)

lemma dictGet_ok_inv {k : String} {l : List (String × β)} {v : β}
    (h : dictGet k l = Except.ok v) : assocLookup k l = some v := by
  rcases hl : assocLookup k l with _ | w
  · rw [show dictGet k l = Except.error (PyErr.keyError k) from by unfold dictGet; rw [hl]] at h
    exact absurd h (by simp)
  · rw [show dictGet k l = Except.ok w from by unfold dictGet; rw [hl]] at h
    exact congrArg some (Except.ok.inj h)

end AssocLemmas

section ConnLemmas

lemma selectMarkerList_map_markerConnOf (k : String) (l : List (String × MarkerH)) :
    (GuiState.selectMarkerList k l).map markerConnOf = l.map markerConnOf := by
  unfold GuiState.selectMarkerList
  rw [List.map_map]
  apply List.map_congr_left
  intro p _
  unfold markerConnOf
  by_cases hp : p.1 = k <;> simp [hp]

lemma selectMarkerList_keys (k : String) (l : List (String × MarkerH)) :
    (GuiState.selectMarkerList k l).map Prod.fst = l.map Prod.fst := by
  unfold GuiState.selectMarkerList
  rw [List.map_map]
  exact List.map_congr_left (fun p _ => rfl)

lemma addPoiMarker_fields (s : GuiState) (n : String) (pos : ℚ × ℚ × ℚ) :
    (s.addPoiMarker n pos).selectorActive = s.selectorActive ∧
    (s.addPoiMarker n pos).selectorChecked = s.selectorChecked ∧
    (s.addPoiMarker n pos).combo = s.combo := by
  unfold GuiState.addPoiMarker
  by_cases h1 : n ≠ ""
  · simp [h1]
    split <;> simp
  · simp [h1]

lemma addPoiMarker_connInv (s : GuiState) (n : String) (pos : ℚ × ℚ × ℚ)
    (hinv : s.conns = s.markers.map markerConnOf) :
    (s.addPoiMarker n pos).conns = (s.addPoiMarker n pos).markers.map markerConnOf := by
  unfold GuiState.addPoiMarker
  by_cases h1 : n ≠ "" <;> simp [h1, hinv]
  split
  · simp [hinv]
  · simp [hinv, markerConnOf]

/-- Inversion of a successful `Except` bind. -/
lemma exceptBind_ok_inv {α β' : Type} {x : Except PyErr α} {f : α → Except PyErr β'}
    {b : β'} (h : x >>= f = Except.ok b) : ∃ a, x = Except.ok a ∧ f a = Except.ok b := by
  rcases x with e | a
  · exact absurd h (by simp [Bind.bind, Except.bind])
  · exact ⟨a, rfl, h⟩

/-- The add-markers fold of `_update_pois` preserves the "connections are
exactly the marker connections" invariant together with the selector fields
and the combo box. -/
lemma addFold_conns (d : List (String × (ℚ × ℚ × ℚ))) (names : List String) :
    ∀ (st st' : GuiState),
      st.conns = st.markers.map markerConnOf →
      (names.foldlM (fun (st : GuiState) (n : String) => do
          let pos ← dictGet n d
          pure (st.addPoiMarker n pos)) st) = Except.ok st' →
      st'.conns = st'.markers.map markerConnOf ∧
      st'.selectorActive = st.selectorActive ∧
      st'.selectorChecked = st.selectorChecked ∧
      st'.combo = st.combo := by
  induction names with
  | nil =>
      intro st st' hinv hf
      have h := Except.ok.inj hf
      subst h
      exact ⟨hinv, rfl, rfl, rfl⟩
  | cons n rest ih =>
      intro st st' hinv hf
      rw [List.foldlM_cons] at hf
      obtain ⟨st₁, hstep, hf'⟩ := exceptBind_ok_inv hf
      obtain ⟨pos, _, hpure⟩ := exceptBind_ok_inv hstep
      have hst₁ : st.addPoiMarker n pos = st₁ := Except.ok.inj hpure
      subst hst₁
      obtain ⟨a, b, c, d'⟩ := ih _ _ (addPoiMarker_connInv st n pos hinv) hf'
      obtain ⟨f1, f2, f3⟩ := addPoiMarker_fields st n pos
      exact ⟨a, by rw [b, f1], by rw [c, f2], by rw [d', f3]⟩

/-- `_update_roi_history` touches only the plot fields and the error log. -/
lemma updateRoiHistory_frame (s : GuiState) (h : HistoryArray) (s' : GuiState)
    (hok : s.updateRoiHistory h = Except.ok s') :
    s'.conns = s.conns ∧ s'.markers = s.markers ∧
    s'.selectorActive = s.selectorActive ∧ s'.selectorChecked = s.selectorChecked := by
  unfold GuiState.updateRoiHistory at hok
  by_cases hw : h.ncols ≠ 4
  · simp [hw, pure, Except.pure] at hok
    subst hok
    exact ⟨rfl, rfl, rfl, rfl⟩
  · simp [hw] at hok
    rcases hnm : npMax (h.col 0) with e | t
    · rw [hnm] at hok
      simp [Except.bind] at hok
    · rw [hnm] at hok
      simp [Except.bind] at hok
      subst hok
      exact ⟨rfl, rfl, rfl, rfl⟩

/-- `_update_pois` run from a state with no markers and no live connections:
it cannot fail except through the modelled `KeyError`s, and on success the
connections are exactly the marker connections of the new marker set; the
selector state is untouched. -/
lemma updatePois_from_empty (logic : Logic) (d : List (String × (ℚ × ℚ × ℚ)))
    (s0 s' : GuiState) (h0m : s0.markers = []) (h0c : s0.conns = [])
    (hok : GuiState.updatePois logic d s0 = Except.ok s') :
    s'.conns = s'.markers.map markerConnOf ∧
    s'.selectorActive = s0.selectorActive ∧ s'.selectorChecked = s0.selectorChecked := by
  unfold GuiState.updatePois at hok
  dsimp only at hok
  obtain ⟨s2, hrep, hok⟩ := exceptBind_ok_inv hok
  simp only [h0m, List.map_nil, List.filter_nil, List.dedup_nil, List.foldl_nil,
    List.foldlM_nil, pure, Except.pure, Except.ok.injEq] at hrep
  subst hrep
  obtain ⟨st1, hfold, hok⟩ := exceptBind_ok_inv hok
  obtain ⟨hinv1, hsa1, hsc1, _⟩ := addFold_conns d _ _ _ (by simp [h0c, h0m]) hfold
  split at hok
  · obtain ⟨m, _, hok⟩ := exceptBind_ok_inv hok
    obtain ⟨pos2, _, hok⟩ := exceptBind_ok_inv hok
    have h := Except.ok.inj hok
    subst h
    refine ⟨?_, ?_, ?_⟩
    · show st1.conns = (GuiState.selectMarkerList logic.activePoi st1.markers).map markerConnOf
      rw [selectMarkerList_map_markerConnOf]
      exact hinv1
    · exact hsa1
    · exact hsc1
  · have h := Except.ok.inj hok
    subst h
    exact ⟨hinv1, hsa1, hsc1⟩

/-- Shape of the state at the end of `on_activate`: connections are the
marker connections followed by the three connect groups in order, and the
POI selector is inactive. -/
lemma onActivate_shape (logic : Logic) (s : GuiState)
    (hok : GuiState.onActivate logic = Except.ok s) :
    s.conns = (s.markers.map markerConnOf)
        ++ internalSignalConnects ++ updateSignalConnects ++ controlSignalConnects ∧
    s.selectorActive = false ∧ s.selectorChecked = false := by
  unfold GuiState.onActivate at hok
  dsimp only at hok
  obtain ⟨s1, hh, hok⟩ := exceptBind_ok_inv hok
  obtain ⟨s2, hp, hok⟩ := exceptBind_ok_inv hok
  have hfin := Except.ok.inj hok
  obtain ⟨hc1, hm1, hsa1, hsc1⟩ := updateRoiHistory_frame _ _ _ hh
  obtain ⟨hc2, hsa2, hsc2⟩ := updatePois_from_empty logic _ s1 s2
    (by rw [hm1]; rfl) (by rw [hc1]; rfl) hp
  subst hfin
  unfold connectSigs
  refine ⟨?_, ?_, ?_⟩
  · show ((s2.conns ++ internalSignalConnects) ++ updateSignalConnects)
        ++ controlSignalConnects = _
    rw [hc2]
  · show s2.selectorActive = false
    rw [hsa2, hsa1]
    rfl
  · show s2.selectorChecked = false
    rw [hsc2, hsc1]
    rfl

/-- `toggle_poi_selector(False)` on a state with the selector inactive and
the action unchecked is the identity. -/
lemma togglePoiSelector_false_noop (s : GuiState)
    (h1 : s.selectorActive = false) (h2 : s.selectorChecked = false) :
    s.togglePoiSelector false = s := by
  unfold GuiState.togglePoiSelector
  have hA : (false ≠ s.selectorActive) = False := by simp [h1]
  have hC : (false ≠ s.selectorChecked) = False := by simp [h2]
  simp only [hA, hC, if_false]
  rw [← h1]

lemma not_markerConn_ne (c : Sig) (h : isMarkerConn c = false) :
    ∀ i : Nat, c ≠ Sig.markerPoiSelected i := by
  intro i hc
  subst hc
  simp [isMarkerConn] at h

/-- The per-marker disconnect loop equals one filter over the connection
list. -/
lemma foldl_filter_markerConns (ms : List (String × MarkerH)) (cs : List Sig) :
    ms.foldl (fun cs p => cs.filter (· ≠ Sig.markerPoiSelected p.2.id)) cs
      = cs.filter (fun c => decide (∀ p ∈ ms, c ≠ Sig.markerPoiSelected p.2.id)) := by
  induction ms generalizing cs with
  | nil => simp
  | cons q rest ih =>
      rw [List.foldl_cons, ih, List.filter_filter]
      apply List.filter_congr
      intro c _
      by_cases h1 : c = Sig.markerPoiSelected q.2.id
      · simp [h1]
      · by_cases h2 : ∀ p ∈ rest, c ≠ Sig.markerPoiSelected p.2.id
        · simp [h1, h2]
        · simp [h1, h2]

/-- Lookup after `_remove_poi_marker`. -/
lemma removePoiMarker_lookup (st : GuiState) (k n : String) :
    assocLookup n (st.removePoiMarker k).markers
      = if n = k then none else assocLookup n st.markers := by
  unfold GuiState.removePoiMarker
  rcases hl : assocLookup k st.markers with _ | m
  · dsimp only
    by_cases hnk : n = k
    · rw [if_pos hnk, hnk]
      exact hl
    · rw [if_neg hnk]
  · dsimp only
    by_cases hnk : n = k
    · rw [if_pos hnk, hnk]
      exact assocLookup_erase_self k st.markers
    · rw [if_neg hnk]
      exact assocLookup_erase_ne n k st.markers hnk

/-- `_remove_poi_marker` only shrinks connections and view items and leaves
the other fields alone. -/
lemma removePoiMarker_frame (st : GuiState) (k : String) :
    (st.removePoiMarker k).nextId = st.nextId ∧
    (st.removePoiMarker k).combo = st.combo ∧
    (∀ c, c ∈ (st.removePoiMarker k).conns → c ∈ st.conns) ∧
    (∀ i, i ∈ (st.removePoiMarker k).viewItems → i ∈ st.viewItems) := by
  unfold GuiState.removePoiMarker
  rcases assocLookup k st.markers with _ | m
  · exact ⟨rfl, rfl, fun c hc => hc, fun i hi => hi⟩
  · exact ⟨rfl, rfl, fun c hc => (List.mem_filter.mp hc).1,
      fun i hi => (List.mem_filter.mp hi).1⟩

/-- Lookup after the delete-markers fold of `_update_pois`. -/
lemma removeFold_lookup (names : List String) (st : GuiState) (n : String) :
    assocLookup n (names.foldl GuiState.removePoiMarker st).markers
      = if n ∈ names then none else assocLookup n st.markers := by
  induction names generalizing st with
  | nil => simp
  | cons k rest ih =>
      rw [List.foldl_cons, ih]
      by_cases h1 : n ∈ rest
      · simp [h1]
      · by_cases h2 : n = k
        · simp [h1, h2, removePoiMarker_lookup]
        · simp [h1, h2, removePoiMarker_lookup]

/-- Frame of the delete-markers fold. -/
lemma removeFold_frame (names : List String) (st : GuiState) :
    (names.foldl GuiState.removePoiMarker st).nextId = st.nextId ∧
    (names.foldl GuiState.removePoiMarker st).combo = st.combo ∧
    (∀ c, c ∈ (names.foldl GuiState.removePoiMarker st).conns → c ∈ st.conns) ∧
    (∀ i, i ∈ (names.foldl GuiState.removePoiMarker st).viewItems → i ∈ st.viewItems) := by
  induction names generalizing st with
  | nil => exact ⟨rfl, rfl, fun c hc => hc, fun i hi => hi⟩
  | cons k rest ih =>
      rw [List.foldl_cons]
      obtain ⟨a, b, c', d'⟩ := ih (st.removePoiMarker k)
      obtain ⟨a0, b0, c0, d0⟩ := removePoiMarker_frame st k
      exact ⟨a.trans a0, b.trans b0, fun c hc => c0 c (c' c hc), fun i hi => d0 i (d' i hi)⟩

/-- A marker deleted by the fold has its connection and view attachment torn
down. -/
lemma removeFold_removed (names : List String) (st : GuiState) (n : String)
    (m : MarkerH) (hmem : n ∈ names) (hlk : assocLookup n st.markers = some m) :
    Sig.markerPoiSelected m.id ∉ (names.foldl GuiState.removePoiMarker st).conns ∧
    m.id ∉ (names.foldl GuiState.removePoiMarker st).viewItems := by
  induction names generalizing st with
  | nil => simp at hmem
  | cons k rest ih =>
      rw [List.foldl_cons]
      by_cases hk : n = k
      · subst hk
        -- this step removes marker `m`
        have hstep : (st.removePoiMarker n).conns
              = st.conns.filter (· ≠ Sig.markerPoiSelected m.id) ∧
            (st.removePoiMarker n).viewItems = st.viewItems.filter (· ≠ m.id) := by
          unfold GuiState.removePoiMarker
          rw [hlk]
          exact ⟨rfl, rfl⟩
        obtain ⟨f1, f2, f3, f4⟩ := removeFold_frame rest (st.removePoiMarker n)
        constructor
        · intro hc
          have := f3 _ hc
          rw [hstep.1] at this
          have := List.of_mem_filter this
          simp at this
        · intro hi
          have := f4 _ hi
          rw [hstep.2] at this
          have := List.of_mem_filter this
          simp at this
      · have hrest : n ∈ rest := by
          rcases List.mem_cons.mp hmem with h | h
          · exact absurd h hk
          · exact h
        have hlk' : assocLookup n (st.removePoiMarker k).markers = some m := by
          rw [removePoiMarker_lookup, if_neg hk]
          exact hlk
        exact ih (st.removePoiMarker k) hrest hlk'

lemma assocLookup_eq_none_of_not_mem {β : Type} (n : String) (l : List (String × β))
    (h : n ∉ l.map Prod.fst) : assocLookup n l = none := by
  rcases hl : assocLookup n l with _ | v
  · rfl
  · exact absurd (mem_keys_of_assocLookup_isSome n l (by rw [hl]; rfl)) h

/-- Lookup after the select step (`self._markers[active_poi].select()`). -/
lemma selectMarkerList_lookup (a n : String) (ms : List (String × MarkerH)) :
    assocLookup n (GuiState.selectMarkerList a ms)
      = (assocLookup n ms).map
          (fun m => if n = a then { m with selected := true } else m) := by
  induction ms with
  | nil => rfl
  | cons p rest ih =>
      unfold GuiState.selectMarkerList at ih ⊢
      rw [List.map_cons, assocLookup_cons, assocLookup_cons]
      dsimp only
      by_cases hp : p.1 = n
      · rw [if_pos hp, if_pos hp, hp]
        rfl
      · rw [if_neg hp, if_neg hp]
        exact ih

/-- The reposition fold of `_update_pois` (`marker.set_position(...)` over
the remaining markers): frame, untouched keys, and the new position of every
iterated key. -/
lemma repositionFold_props (d : List (String × (ℚ × ℚ × ℚ)))
    (iter : List (String × MarkerH)) :
    ∀ (st st' : GuiState),
      (iter.foldlM (fun (st : GuiState) (p : String × MarkerH) => do
          let pos ← dictGet p.1 d
          pure (st.setMarkerPosition p.1 (pos.1, pos.2.1))) st) = Except.ok st' →
      (st'.conns = st.conns ∧ st'.viewItems = st.viewItems ∧ st'.nextId = st.nextId) ∧
      (∀ n, n ∉ iter.map Prod.fst →
        assocLookup n st'.markers = assocLookup n st.markers) ∧
      (∀ n, n ∈ iter.map Prod.fst → ∃ p, assocLookup n d = some p ∧
        assocLookup n st'.markers
          = (assocLookup n st.markers).map (fun m => { m with pos := (p.1, p.2.1) })) := by
  induction iter with
  | nil =>
      intro st st' hf
      have h := Except.ok.inj hf
      subst h
      exact ⟨⟨rfl, rfl, rfl⟩, fun n _ => rfl, fun n hn => by simp at hn⟩
  | cons q rest ih =>
      intro st st' hf
      rw [List.foldlM_cons] at hf
      obtain ⟨st₁, hstep, hf'⟩ := exceptBind_ok_inv hf
      obtain ⟨v, hdg, hpure⟩ := exceptBind_ok_inv hstep
      have hv : assocLookup q.1 d = some v := dictGet_ok_inv hdg
      have hst₁ : st.setMarkerPosition q.1 (v.1, v.2.1) = st₁ := Except.ok.inj hpure
      subst hst₁
      obtain ⟨⟨f1, f2, f3⟩, hmiss, hhit⟩ := ih _ _ hf'
      have hlk₁ : ∀ n, assocLookup n (st.setMarkerPosition q.1 (v.1, v.2.1)).markers
          = (assocLookup n st.markers).map
              (fun m => if n = q.1 then { m with pos := (v.1, v.2.1) } else m) := by
        intro n
        exact assocLookup_keyed_map n
          (fun key m => if key = q.1 then { m with pos := (v.1, v.2.1) } else m) st.markers
      refine ⟨⟨f1, f2, f3⟩, ?_, ?_⟩
      · intro n hn
        have hnq : ¬ n = q.1 := fun hc => hn (by simp [hc])
        have hnr : n ∉ rest.map Prod.fst := fun hc => hn (by simp [hc])
        rw [hmiss n hnr, hlk₁ n]
        rcases assocLookup n st.markers with _ | m
        · rfl
        · simp [hnq]
      · intro n hn
        by_cases hnr : n ∈ rest.map Prod.fst
        · obtain ⟨p, hp, hlk'⟩ := hhit n hnr
          refine ⟨p, hp, ?_⟩
          rw [hlk', hlk₁ n]
          rcases assocLookup n st.markers with _ | m
          · rfl
          · by_cases hnq : n = q.1
            · subst hnq
              have hpv : p = v := by
                rw [hp] at hv
                exact Option.some.inj hv
              subst hpv
              simp
            · simp [hnq]
        · have hnq : n = q.1 := by
            rw [List.map_cons] at hn
            rcases List.mem_cons.mp hn with h | h
            · exact h
            · exact absurd h hnr
          refine ⟨v, by rw [hnq]; exact hv, ?_⟩
          rw [hmiss n hnr, hlk₁ n]
          rcases assocLookup n st.markers with _ | m
          · rfl
          · simp [hnq]

lemma mem_naturalSort (n : String) (l : List String) : n ∈ naturalSort l ↔ n ∈ l := by
  unfold naturalSort
  exact List.mem_insertionSort _

/-- Single-step facts about `_add_poi_marker`. -/
lemma addPoiMarker_lookup_ne (st : GuiState) (k : String) (pos : ℚ × ℚ × ℚ)
    (n : String) (hnk : n ≠ k) :
    assocLookup n (st.addPoiMarker k pos).markers = assocLookup n st.markers := by
  unfold GuiState.addPoiMarker
  by_cases h1 : k ≠ ""
  · rw [if_pos h1]
    by_cases hl : (assocLookup k st.markers).isSome
    · rw [if_pos hl]
    · rw [if_neg hl]
      dsimp only
      rw [assocLookup_append]
      rcases assocLookup n st.markers with _ | m
      · dsimp only
        rw [assocLookup_cons, if_neg (fun hc => hnk hc.symm), assocLookup_nil]
      · rfl
  · rw [if_neg h1]

lemma addPoiMarker_fresh (st : GuiState) (k : String) (pos : ℚ × ℚ × ℚ)
    (hk : k ≠ "") (hnew : assocLookup k st.markers = none) :
    assocLookup k (st.addPoiMarker k pos).markers
      = some { id := st.nextId, poiName := k, pos := (pos.1, pos.2.1), selected := false } ∧
    (st.addPoiMarker k pos).nextId = st.nextId + 1 := by
  unfold GuiState.addPoiMarker
  rw [if_pos hk, if_neg (by rw [hnew]; exact fun hc => by cases hc)]
  dsimp only
  constructor
  · rw [assocLookup_append, hnew]
    dsimp only
    rw [assocLookup_cons, if_pos rfl]
  · rfl

lemma addPoiMarker_nextId_mono (st : GuiState) (k : String) (pos : ℚ × ℚ × ℚ) :
    st.nextId ≤ (st.addPoiMarker k pos).nextId := by
  unfold GuiState.addPoiMarker
  by_cases h1 : k ≠ ""
  · rw [if_pos h1]
    split
    · exact le_refl _
    · exact Nat.le_succ _
  · rw [if_neg h1]

lemma addPoiMarker_conns_view (st : GuiState) (k : String) (pos : ℚ × ℚ × ℚ) :
    (∀ c, c ∈ (st.addPoiMarker k pos).conns →
      c ∈ st.conns ∨ c = Sig.markerPoiSelected st.nextId) ∧
    (∀ i, i ∈ (st.addPoiMarker k pos).viewItems → i ∈ st.viewItems ∨ i = st.nextId) := by
  unfold GuiState.addPoiMarker
  by_cases h1 : k ≠ ""
  · rw [if_pos h1]
    split
    · exact ⟨fun c hc => Or.inl hc, fun i hi => Or.inl hi⟩
    · constructor
      · intro c hc
        rcases List.mem_append.mp hc with h | h
        · exact Or.inl h
        · exact Or.inr (by simpa using h)
      · intro i hi
        rcases List.mem_append.mp hi with h | h
        · exact Or.inl h
        · exact Or.inr (by simpa using h)
  · rw [if_neg h1]
    exact ⟨fun c hc => Or.inl hc, fun i hi => Or.inl hi⟩

/-- The add-markers fold of `_update_pois`: allocator monotonicity, untouched
keys, the marker created for every (distinct, non-empty, new) name, and the
provenance of connections and view items. -/
lemma addFold_props (d : List (String × (ℚ × ℚ × ℚ))) (names : List String) :
    ∀ (st st' : GuiState),
      (names.foldlM (fun (st : GuiState) (n : String) => do
          let pos ← dictGet n d
          pure (st.addPoiMarker n pos)) st) = Except.ok st' →
      st.nextId ≤ st'.nextId ∧
      (∀ n, n ∉ names → assocLookup n st'.markers = assocLookup n st.markers) ∧
      (names.Nodup → (∀ n ∈ names, n ≠ "") →
        (∀ n ∈ names, assocLookup n st.markers = none) →
        ∀ n ∈ names, ∃ p m', assocLookup n d = some p ∧
          assocLookup n st'.markers = some m' ∧
          m'.pos = (p.1, p.2.1) ∧ st.nextId ≤ m'.id) ∧
      (∀ c, c ∈ st'.conns → c ∈ st.conns ∨
        ∃ i, st.nextId ≤ i ∧ c = Sig.markerPoiSelected i) ∧
      (∀ i, i ∈ st'.viewItems → i ∈ st.viewItems ∨ st.nextId ≤ i) := by
  induction names with
  | nil =>
      intro st st' hf
      have h := Except.ok.inj hf
      subst h
      exact ⟨le_refl _, fun n _ => rfl, fun _ _ _ n hn => by simp at hn,
        fun c hc => Or.inl hc, fun i hi => Or.inl hi⟩
  | cons k rest ih =>
      intro st st' hf
      rw [List.foldlM_cons] at hf
      obtain ⟨st₁, hstep, hf'⟩ := exceptBind_ok_inv hf
      obtain ⟨v, hdg, hpure⟩ := exceptBind_ok_inv hstep
      have hv : assocLookup k d = some v := dictGet_ok_inv hdg
      have hst₁ : st.addPoiMarker k v = st₁ := Except.ok.inj hpure
      subst hst₁
      obtain ⟨hmono, hmiss, hhit, hconn, hview⟩ := ih _ _ hf'
      have hmono₀ := addPoiMarker_nextId_mono st k v
      refine ⟨hmono₀.trans hmono, ?_, ?_, ?_, ?_⟩
      · intro n hn
        have hnk : n ≠ k := fun hc => hn (hc ▸ List.mem_cons_self k rest)
        have hnr : n ∉ rest := fun hc => hn (List.mem_cons_of_mem k hc)
        rw [hmiss n hnr, addPoiMarker_lookup_ne st k v n hnk]
      · intro hnd hne hnone n hn
        have hknr : k ∉ rest := (List.nodup_cons.mp hnd).1
        rcases List.mem_cons.mp hn with rfl | hnr
        · obtain ⟨hfr, _⟩ := addPoiMarker_fresh st n v
            (hne n (List.mem_cons_self n rest)) (hnone n (List.mem_cons_self n rest))
          refine ⟨v, { id := st.nextId, poiName := n, pos := (v.1, v.2.1), selected := false },
            hv, ?_, rfl, le_refl _⟩
          rw [hmiss n hknr]
          exact hfr
        · obtain ⟨p, m', hp, hlk', hpos', hid'⟩ := hhit (List.nodup_cons.mp hnd).2
            (fun x hx => hne x (List.mem_cons_of_mem k hx))
            (fun x hx => by
              have hxk : x ≠ k := fun hc => hknr (hc ▸ hx)
              rw [addPoiMarker_lookup_ne st k v x hxk]
              exact hnone x (List.mem_cons_of_mem k hx))
            n hnr
          exact ⟨p, m', hp, hlk', hpos', hmono₀.trans hid'⟩
      · intro c hc
        rcases hconn c hc with h | ⟨i, hi, rfl⟩
        · rcases (addPoiMarker_conns_view st k v).1 c h with h' | h'
          · exact Or.inl h'
          · exact Or.inr ⟨st.nextId, le_refl _, h'⟩
        · exact Or.inr ⟨i, hmono₀.trans hi, rfl⟩
      · intro i hi
        rcases hview i hi with h | h
        · rcases (addPoiMarker_conns_view st k v).2 i h with h' | h'
          · exact Or.inl h'
          · exact Or.inr (h' ▸ le_refl _)
        · exact Or.inr (hmono₀.trans h)

/-- A list of non-marker connections passes the per-marker disconnect filter
unchanged. -/
lemma filter_markerPred_of_no_marker (ms : List (String × MarkerH)) (L : List Sig)
    (h : ∀ c ∈ L, isMarkerConn c = false) :
    L.filter (fun c => decide (∀ p ∈ ms, c ≠ Sig.markerPoiSelected p.2.id)) = L := by
  apply List.filter_eq_self.mpr
  intro c hc
  exact decide_eq_true (fun p _ => not_markerConn_ne c (h c hc) p.2.id)

end ConnLemmas

section SelInvLemmas

/-- `idxOfStr` finds an index that holds the searched text. -/
lemma idxOfStr_getD (t : String) (l : List String) (h : t ∈ l) :
    ∃ i, idxOfStr t l = some i ∧ l.getD i "" = t := by
  induction l with
  | nil => cases h
  | cons x xs ih =>
      by_cases hx : x = t
      · exact ⟨0, by simp [idxOfStr, hx], by simp [hx]⟩
      · have hm : t ∈ xs := by
          rcases List.mem_cons.mp h with h' | h'
          · exact absurd h'.symm hx
          · exact h'
        obtain ⟨i, hi, hg⟩ := ih hm
        exact ⟨i + 1, by simp [idxOfStr, hx, hi], by simpa using hg⟩

/-- `setCurrentText` never changes the item list. -/
lemma setCurrentText_items (c : Combo) (t : String) :
    (c.setCurrentText t).items = c.items := by
  unfold Combo.setCurrentText
  rcases hidx : idxOfStr t c.items with _ | i <;> rfl

/-- Non-editable `setCurrentText` with a text present in the item list makes
that text current. -/
lemma setCurrentText_hit (c : Combo) (t : String) (h : t ∈ c.items) :
    (c.setCurrentText t).currentText = t := by
  obtain ⟨i, hi, hg⟩ := idxOfStr_getD t c.items h
  have hc : c.setCurrentText t = { c with index := some i } := by
    unfold Combo.setCurrentText
    rw [hi]
  rw [hc]
  exact hg

lemma nodup_append_singleton {α : Type} (l : List α) (a : α) (hl : l.Nodup)
    (ha : a ∉ l) : (l ++ [a]).Nodup := by
  rw [List.nodup_append]
  refine ⟨hl, List.nodup_singleton a, fun x hx hxa => ?_⟩
  rw [List.mem_singleton.mp hxa] at hx
  exact ha hx

/-- `d.pop(k)` drops entries, keeping the rest in order. -/
lemma assocErase_sublist {β : Type} (k : String) (l : List (String × β)) :
    (assocErase k l).Sublist l := by
  induction l with
  | nil => exact List.Sublist.refl []
  | cons p rest ih =>
      rw [assocErase_cons]
      by_cases hp : p.1 = k
      · rw [if_pos hp]
        exact ih.cons p
      · rw [if_neg hp]
        exact ih.cons₂ p

/-- Entries surviving `d.pop(k)` are not keyed `k`. -/
lemma mem_assocErase_ne {β : Type} {k : String} {p : String × β}
    {l : List (String × β)} (h : p ∈ assocErase k l) : p.1 ≠ k := by
  induction l with
  | nil => simp at h
  | cons q rest ih =>
      rw [assocErase_cons] at h
      by_cases hq : q.1 = k
      · rw [if_pos hq] at h
        exact ih h
      · rw [if_neg hq] at h
        rcases List.mem_cons.mp h with rfl | h'
        · exact hq
        · exact ih h'

/-- A key present after `d.pop(k)` was present before and differs from `k`. -/
lemma mem_keys_assocErase {β : Type} (k x : String) (l : List (String × β))
    (h : x ∈ (assocErase k l).map Prod.fst) : x ∈ l.map Prod.fst ∧ x ≠ k := by
  obtain ⟨p, hp, hpx⟩ := List.mem_map.mp h
  subst hpx
  exact ⟨List.mem_map_of_mem Prod.fst ((assocErase_sublist k l).subset hp),
    mem_assocErase_ne hp⟩

/-- `d[k] = v` on an absent key appends the new entry. -/
lemma assocSet_of_not_mem {β : Type} (k : String) (v : β) :
    ∀ l : List (String × β), k ∉ l.map Prod.fst →
      assocSet k v l = l ++ [(k, v)] := by
  intro l
  induction l with
  | nil => intro _; rfl
  | cons p rest ih =>
      intro h
      rcases p with ⟨k', v'⟩
      rw [List.map_cons, List.mem_cons] at h
      push_neg at h
      show (if k' = k then (k, v) :: rest else (k', v') :: assocSet k v rest)
        = (k', v') :: rest ++ [(k, v)]
      rw [if_neg (fun hc => h.1 hc.symm), ih h.2]
      rfl

/-- The deselect loop of `update_active_poi` keeps the key list. -/
lemma deselectFirstSelected_keys (l : List (String × MarkerH)) :
    (GuiState.deselectFirstSelected l).map Prod.fst = l.map Prod.fst := by
  induction l with
  | nil => rfl
  | cons q rest ih =>
      rcases q with ⟨k, m⟩
      unfold GuiState.deselectFirstSelected
      by_cases hm : m.selected = true
      · rw [if_pos hm]
        rfl
      · rw [if_neg hm, List.map_cons, List.map_cons, ih]

/-- Under the selection invariant (distinct keys, every selected marker keyed
by the one current text), the first-selected deselect loop leaves no marker
selected: there was at most one selected marker to begin with. -/
lemma deselectFirstSelected_none (t : String) :
    ∀ l : List (String × MarkerH), (l.map Prod.fst).Nodup →
      (∀ p ∈ l, p.2.selected = true → p.1 = t) →
      ∀ p ∈ GuiState.deselectFirstSelected l, p.2.selected = false := by
  intro l
  induction l with
  | nil => intro _ _ p hp; cases hp
  | cons q rest ih =>
      intro hnd hsel
      rcases q with ⟨k, m⟩
      unfold GuiState.deselectFirstSelected
      by_cases hm : m.selected = true
      · rw [if_pos hm]
        intro p hp
        rcases List.mem_cons.mp hp with rfl | hp'
        · rfl
        · cases hq : p.2.selected
          · rfl
          · exfalso
            have hkt : k = t := hsel ⟨k, m⟩ (List.mem_cons_self _ _) hm
            have hpt : p.1 = t := hsel p (List.mem_cons_of_mem _ hp') hq
            have hmem : p.1 ∈ rest.map Prod.fst := List.mem_map_of_mem Prod.fst hp'
            rw [hpt, ← hkt] at hmem
            exact (List.nodup_cons.mp hnd).1 hmem
      · rw [if_neg hm]
        intro p hp
        rcases List.mem_cons.mp hp with rfl | hp'
        · cases hq : m.selected
          · rfl
          · exact absurd hq hm
        · exact ih (List.nodup_cons.mp hnd).2
            (fun p' hp'' hps => hsel p' (List.mem_cons_of_mem _ hp'') hps) p hp'

/-- With distinct keys all keyed selections collapse to at most one selected
marker. -/
lemma filter_selected_len_le_one (t : String) :
    ∀ l : List (String × MarkerH), (l.map Prod.fst).Nodup →
      (∀ p ∈ l, p.2.selected = true → p.1 = t) →
      (l.filter (fun p => p.2.selected)).length ≤ 1 := by
  intro l
  induction l with
  | nil => intro _ _; simp
  | cons q rest ih =>
      intro hnd hsel
      by_cases hq : q.2.selected = true
      · have hrest : rest.filter (fun p => p.2.selected) = [] := by
          apply List.filter_eq_nil_iff.mpr
          intro p hp hps
          have h1 : p.1 = t := hsel p (List.mem_cons_of_mem q hp) (by simpa using hps)
          have h2 : q.1 = t := hsel q (List.mem_cons_self q rest) hq
          have h3 : p.1 ∈ rest.map Prod.fst := List.mem_map_of_mem Prod.fst hp
          rw [h1, ← h2] at h3
          exact (List.nodup_cons.mp hnd).1 h3
        simp [List.filter_cons, hq, hrest]
      · have hq' : q.2.selected = false := by
          cases hqq : q.2.selected
          · rfl
          · exact absurd hqq hq
        simp only [List.filter_cons, hq', Bool.false_eq_true, if_false]
        exact ih (List.nodup_cons.mp hnd).2
          (fun p hp hps => hsel p (List.mem_cons_of_mem q hp) hps)

/-- A marker selected after `selectMarkerList` is either keyed by the
selected name or was selected before. -/
lemma selectMarkerList_selected (t : String) (l : List (String × MarkerH)) :
    ∀ p ∈ GuiState.selectMarkerList t l, p.2.selected = true →
      p.1 = t ∨ ∃ q ∈ l, q.1 = p.1 ∧ q.2.selected = true := by
  intro p hp hps
  unfold GuiState.selectMarkerList at hp
  obtain ⟨q, hq, hpq⟩ := List.mem_map.mp hp
  by_cases hqt : q.1 = t
  · left
    rw [← hpq]
    exact hqt
  · right
    refine ⟨q, hq, ?_, ?_⟩
    · rw [← hpq]
    · rw [← hpq] at hps
      dsimp only at hps
      rw [if_neg hqt] at hps
      exact hps

/-- Selecting the current text preserves "selected markers are keyed by the
current text". -/
lemma selInv_markers_select (t : String) (l : List (String × MarkerH))
    (hsel : ∀ p ∈ l, p.2.selected = true → p.1 = t) :
    ∀ p ∈ GuiState.selectMarkerList t l, p.2.selected = true → p.1 = t := by
  intro p hp hps
  rcases selectMarkerList_selected t l p hp hps with h | ⟨q, hq, hqp, hqs⟩
  · exact h
  · rw [← hqp]
    exact hsel q hq hqs

/-- The final reselect step of `update_poi` (source lines 693-699) restores
the full selection invariant from the invariant body of the intermediate
state. -/
lemma finalSelect_inv (sB s₁ : GuiState)
    (hnd : (keysOf sB).Nodup) (hne : "" ∉ keysOf sB)
    (hsel : ∀ p ∈ sB.markers, p.2.selected = true → p.1 = sB.combo.currentText)
    (hsub : ∀ k ∈ keysOf sB, k ∈ sB.combo.items)
    (hok : (if sB.combo.currentText ≠ "" then do
        let _ ← dictGet sB.combo.currentText sB.markers
        pure { sB with markers :=
          GuiState.selectMarkerList sB.combo.currentText sB.markers }
      else pure sB) = Except.ok s₁) :
    selInv s₁ := by
  by_cases ht : sB.combo.currentText ≠ ""
  · rw [if_pos ht] at hok
    obtain ⟨v, _, hp⟩ := exceptBind_ok_inv hok
    have hs₁ : { sB with markers :=
        GuiState.selectMarkerList sB.combo.currentText sB.markers } = s₁ :=
      Except.ok.inj hp
    subst hs₁
    refine ⟨?_, ?_, ?_, ?_⟩
    · show ((GuiState.selectMarkerList sB.combo.currentText sB.markers).map
        Prod.fst).Nodup
      rw [selectMarkerList_keys]
      exact hnd
    · show "" ∉ (GuiState.selectMarkerList sB.combo.currentText sB.markers).map
        Prod.fst
      rw [selectMarkerList_keys]
      exact hne
    · exact fun p hp' hps =>
        selInv_markers_select sB.combo.currentText sB.markers hsel p hp' hps
    · intro k hk
      have hk' : k ∈ (GuiState.selectMarkerList sB.combo.currentText
          sB.markers).map Prod.fst := hk
      rw [selectMarkerList_keys] at hk'
      exact hsub k hk'
  · rw [if_neg ht] at hok
    have hs₁ : sB = s₁ := Except.ok.inj hok
    subst hs₁
    exact ⟨hnd, hne, hsel, hsub⟩

/-- Appending a fresh unselected marker preserves the invariant body. -/
lemma selInv_append_fresh (t : String) (l : List (String × MarkerH)) (n : String)
    (m : MarkerH) (items : List String)
    (hnd : (l.map Prod.fst).Nodup) (hne : "" ∉ l.map Prod.fst)
    (hnk : n ∉ l.map Prod.fst) (hn : n ≠ "") (hmsel : m.selected = false)
    (hsel : ∀ p ∈ l, p.2.selected = true → p.1 = t)
    (hsub : ∀ k ∈ l.map Prod.fst, k ∈ items) (hni : n ∈ items) :
    ((l ++ [(n, m)]).map Prod.fst).Nodup ∧
    "" ∉ (l ++ [(n, m)]).map Prod.fst ∧
    (∀ p ∈ l ++ [(n, m)], p.2.selected = true → p.1 = t) ∧
    (∀ k ∈ (l ++ [(n, m)]).map Prod.fst, k ∈ items) := by
  refine ⟨?_, ?_, ?_, ?_⟩
  · rw [List.map_append]
    exact nodup_append_singleton _ _ hnd hnk
  · rw [List.map_append]
    intro hmem
    rcases List.mem_append.mp hmem with h | h
    · exact hne h
    · exact hn (List.mem_singleton.mp h).symm
  · intro p hp hps
    rcases List.mem_append.mp hp with h | h
    · exact hsel p h hps
    · have hms : m.selected = true := by
        rw [List.mem_singleton.mp h] at hps
        exact hps
      rw [hmsel] at hms
      exact Bool.noConfusion hms
  · intro k hk
    rw [List.map_append] at hk
    rcases List.mem_append.mp hk with h | h
    · exact hsub k h
    · rw [List.mem_singleton.mp h]
      exact hni

/-- `_add_poi_marker` preserves the invariant body when the new name is
absent and listed in the dropdown. -/
lemma selInv_addPoiMarker (sA : GuiState) (n : String) (pos : ℚ × ℚ × ℚ)
    (hnd : (keysOf sA).Nodup) (hne : "" ∉ keysOf sA) (hnk : n ∉ keysOf sA)
    (hsel : ∀ p ∈ sA.markers, p.2.selected = true → p.1 = sA.combo.currentText)
    (hsub : ∀ k ∈ keysOf sA, k ∈ sA.combo.items) (hni : n ∈ sA.combo.items) :
    (keysOf (sA.addPoiMarker n pos)).Nodup ∧
    "" ∉ keysOf (sA.addPoiMarker n pos) ∧
    (∀ p ∈ (sA.addPoiMarker n pos).markers, p.2.selected = true →
      p.1 = (sA.addPoiMarker n pos).combo.currentText) ∧
    (∀ k ∈ keysOf (sA.addPoiMarker n pos),
      k ∈ (sA.addPoiMarker n pos).combo.items) := by
  by_cases hn : n ≠ ""
  · have hlk : assocLookup n sA.markers = none :=
      assocLookup_eq_none_of_not_mem n sA.markers hnk
    have haddEq : sA.addPoiMarker n pos =
        { sA with
          viewItems := sA.viewItems ++ [sA.nextId]
          conns := sA.conns ++ [Sig.markerPoiSelected sA.nextId]
          markers := sA.markers ++
            [(n, { id := sA.nextId, poiName := n, pos := (pos.1, pos.2.1),
                   selected := false })]
          nextId := sA.nextId + 1 } := by
      unfold GuiState.addPoiMarker
      rw [if_pos hn, if_neg (by rw [hlk]; exact fun hc => by cases hc)]
    obtain ⟨h1, h2, h3, h4⟩ := selInv_append_fresh sA.combo.currentText
      sA.markers n
      { id := sA.nextId, poiName := n, pos := (pos.1, pos.2.1), selected := false }
      sA.combo.items hnd hne hnk hn rfl hsel hsub hni
    rw [haddEq]
    exact ⟨h1, h2, h3, h4⟩
  · have hnoop : sA.addPoiMarker n pos = sA := by
      unfold GuiState.addPoiMarker
      rw [if_neg hn]
    rw [hnoop]
    exact ⟨hnd, hne, hsel, hsub⟩

/-- `_remove_poi_marker` preserves the invariant body; the invariant inputs
are only needed away from the removed key. -/
lemma selInv_removePoiMarker_inv (sA : GuiState) (o : String)
    (hnd : (keysOf sA).Nodup) (hne : "" ∉ keysOf sA)
    (hselC : ∀ p ∈ sA.markers, p.1 ≠ o → p.2.selected = true →
      p.1 = sA.combo.currentText)
    (hsubC : ∀ k ∈ keysOf sA, k ≠ o → k ∈ sA.combo.items) :
    (keysOf (sA.removePoiMarker o)).Nodup ∧
    "" ∉ keysOf (sA.removePoiMarker o) ∧
    (∀ p ∈ (sA.removePoiMarker o).markers, p.2.selected = true →
      p.1 = (sA.removePoiMarker o).combo.currentText) ∧
    (∀ k ∈ keysOf (sA.removePoiMarker o),
      k ∈ (sA.removePoiMarker o).combo.items) := by
  unfold GuiState.removePoiMarker
  rcases hlk : assocLookup o sA.markers with _ | m
  · have hono : o ∉ keysOf sA := by
      intro hc
      have h := assocLookup_isSome_of_mem_keys o sA.markers hc
      rw [hlk] at h
      simp at h
    refine ⟨hnd, hne, ?_, ?_⟩
    · intro p hp hps
      refine hselC p hp (fun hc => hono ?_) hps
      rw [← hc]
      exact List.mem_map_of_mem Prod.fst hp
    · intro k hk
      exact hsubC k hk (fun hc => hono (hc ▸ hk))
  · have hsubl := assocErase_sublist o sA.markers
    refine ⟨?_, ?_, ?_, ?_⟩
    · exact List.Nodup.sublist (hsubl.map Prod.fst) hnd
    · intro hmem
      exact hne (mem_keys_assocErase o "" sA.markers hmem).1
    · intro p hp hps
      exact hselC p (hsubl.subset hp) (mem_assocErase_ne hp) hps
    · intro k hk
      obtain ⟨h1, h2⟩ := mem_keys_assocErase o k sA.markers hk
      exact hsubC k h1 h2

/-- The rename branch of `update_poi` (re-keying the marker of `o` under `n`)
preserves the invariant body, provided a selected renamed marker ends up
keyed by the current text. -/
lemma selInv_renameMarker (sA : GuiState) (o n : String) (m m' : MarkerH)
    (_hm : assocLookup o sA.markers = some m) (hms' : m'.selected = m.selected)
    (hnd : (keysOf sA).Nodup) (hne : "" ∉ keysOf sA) (hn : ¬ n = "")
    (hselC : ∀ p ∈ sA.markers, p.1 ≠ o → p.2.selected = true →
      p.1 = sA.combo.currentText)
    (hni : n ∈ sA.combo.items)
    (hnk : n ∉ (assocErase o sA.markers).map Prod.fst)
    (hms : m.selected = true → n = sA.combo.currentText)
    (hsubC : ∀ k ∈ keysOf sA, k ≠ o → k ∈ sA.combo.items) :
    ((assocSet n m' (assocErase o sA.markers)).map Prod.fst).Nodup ∧
    "" ∉ (assocSet n m' (assocErase o sA.markers)).map Prod.fst ∧
    (∀ p ∈ assocSet n m' (assocErase o sA.markers), p.2.selected = true →
      p.1 = sA.combo.currentText) ∧
    (∀ k ∈ (assocSet n m' (assocErase o sA.markers)).map Prod.fst,
      k ∈ sA.combo.items) := by
  have hset := assocSet_of_not_mem n m' (assocErase o sA.markers) hnk
  rw [hset]
  have hsubl := assocErase_sublist o sA.markers
  refine ⟨?_, ?_, ?_, ?_⟩
  · rw [List.map_append]
    exact nodup_append_singleton _ _
      (List.Nodup.sublist (hsubl.map Prod.fst) hnd) hnk
  · rw [List.map_append]
    intro hmem
    rcases List.mem_append.mp hmem with h | h
    · exact hne (mem_keys_assocErase o "" sA.markers h).1
    · exact hn (List.mem_singleton.mp h).symm
  · intro p hp hps
    rcases List.mem_append.mp hp with h | h
    · exact hselC p (hsubl.subset h) (mem_assocErase_ne h) hps
    · have hpe : p = (n, m') := List.mem_singleton.mp h
      subst hpe
      exact hms (hms' ▸ hps)
  · intro k hk
    rw [List.map_append] at hk
    rcases List.mem_append.mp hk with h | h
    · obtain ⟨h1, h2⟩ := mem_keys_assocErase o k sA.markers h
      exact hsubC k h1 h2
    · rw [List.mem_singleton.mp h]
      exact hni

/-- Invariant preservation for the marker operation plus final reselect of
`update_poi`, for an arbitrary post-rebuild state `sA`.  The hypotheses
capture what the combo rebuild guarantees in each consistent case. -/
lemma selInv_updatePoi_core (o n : String) (pos : ℚ × ℚ × ℚ) (sA s₁ : GuiState)
    (hok : (do
      let s ←
        if o = "" then
          pure (sA.addPoiMarker n pos)
        else if n = "" then
          pure (sA.removePoiMarker o)
        else do
          let m ← dictGet o sA.markers
          let m := { m with poiName := n, pos := (pos.1, pos.2.1) }
          pure { sA with markers := assocSet n m (assocErase o sA.markers) }
      let activePoi := s.combo.currentText
      if activePoi ≠ "" then do
        let _ ← dictGet activePoi s.markers
        pure { s with markers := GuiState.selectMarkerList activePoi s.markers }
      else
        pure s) = Except.ok s₁)
    (hnd : (keysOf sA).Nodup) (hne : "" ∉ keysOf sA)
    (hselC : ∀ p ∈ sA.markers, p.1 ≠ o → p.2.selected = true →
      p.1 = sA.combo.currentText)
    (hsubC : ∀ k ∈ keysOf sA, k ≠ o → k ∈ sA.combo.items)
    (hadd : o = "" → n ≠ "" → n ∉ keysOf sA ∧ n ∈ sA.combo.items)
    (hren : o ≠ "" → n ≠ "" →
      n ∈ sA.combo.items ∧ (n = o ∨ n ∉ keysOf sA) ∧
      (∀ m, assocLookup o sA.markers = some m → m.selected = true →
        n = sA.combo.currentText)) :
    selInv s₁ := by
  by_cases hoe : o = ""
  · rw [if_pos hoe] at hok
    obtain ⟨sB, hmark, hfin⟩ := exceptBind_ok_inv hok
    have hselF : ∀ p ∈ sA.markers, p.2.selected = true →
        p.1 = sA.combo.currentText := by
      intro p hp hps
      refine hselC p hp (fun hc => hne ?_) hps
      rw [← hoe, ← hc]
      exact List.mem_map_of_mem Prod.fst hp
    have hsubF : ∀ k ∈ keysOf sA, k ∈ sA.combo.items := by
      intro k hk
      refine hsubC k hk (fun hc => hne ?_)
      rw [← hoe, ← hc]
      exact hk
    by_cases hnn : n ≠ ""
    · obtain ⟨hnk, hni⟩ := hadd hoe hnn
      obtain ⟨h1, h2, h3, h4⟩ :=
        selInv_addPoiMarker sA n pos hnd hne hnk hselF hsubF hni
      have hsB : sA.addPoiMarker n pos = sB := Except.ok.inj hmark
      rw [hsB] at h1 h2 h3 h4
      exact finalSelect_inv sB s₁ h1 h2 h3 h4 hfin
    · have hnoop : sA.addPoiMarker n pos = sA := by
        unfold GuiState.addPoiMarker
        rw [if_neg hnn]
      rw [hnoop] at hmark
      have hsB : sA = sB := Except.ok.inj hmark
      rw [hsB] at hnd hne hselF hsubF
      exact finalSelect_inv sB s₁ hnd hne hselF hsubF hfin
  · rw [if_neg hoe] at hok
    by_cases hnn : n = ""
    · rw [if_pos hnn] at hok
      obtain ⟨sB, hmark, hfin⟩ := exceptBind_ok_inv hok
      obtain ⟨h1, h2, h3, h4⟩ :=
        selInv_removePoiMarker_inv sA o hnd hne hselC hsubC
      have hsB : sA.removePoiMarker o = sB := Except.ok.inj hmark
      rw [hsB] at h1 h2 h3 h4
      exact finalSelect_inv sB s₁ h1 h2 h3 h4 hfin
    · rw [if_neg hnn] at hok
      obtain ⟨m, hdg, hrest⟩ := exceptBind_ok_inv hok
      obtain ⟨sB, hpure, hfin⟩ := exceptBind_ok_inv hrest
      have hm : assocLookup o sA.markers = some m := dictGet_ok_inv hdg
      have hsB : { sA with markers :=
          (assocSet n { m with poiName := n, pos := (pos.1, pos.2.1) }
            (assocErase o sA.markers)) } = sB := Except.ok.inj hpure
      obtain ⟨hni, hnor, hmsel⟩ := hren hoe hnn
      have hnk' : n ∉ (assocErase o sA.markers).map Prod.fst := by
        intro hc
        obtain ⟨hc1, hc2⟩ := mem_keys_assocErase o n sA.markers hc
        rcases hnor with h | h
        · exact hc2 h
        · exact h hc1
      obtain ⟨h1, h2, h3, h4⟩ := selInv_renameMarker sA o n m
        { m with poiName := n, pos := (pos.1, pos.2.1) } hm rfl hnd hne hnn
        hselC hni hnk' (hmsel m hm) hsubC
      have h1' : (keysOf sB).Nodup := by rw [← hsB]; exact h1
      have h2' : "" ∉ keysOf sB := by rw [← hsB]; exact h2
      have h3' : ∀ p ∈ sB.markers, p.2.selected = true →
          p.1 = sB.combo.currentText := by rw [← hsB]; exact h3
      have h4' : ∀ k ∈ keysOf sB, k ∈ sB.combo.items := by rw [← hsB]; exact h4
      exact finalSelect_inv sB s₁ h1' h2' h3' h4' hfin

/-- `update_poi` preserves the selection invariant on consistent payloads. -/
lemma selInv_updatePoi (logic : Logic) (o n : String) (pos : ℚ × ℚ × ℚ)
    (s s₁ : GuiState) (hinv : selInv s)
    (hcons : eventConsistent (GuiEvent.poiUpdated logic o n pos) s)
    (hok : GuiState.updatePoi logic o n pos s = Except.ok s₁) :
    selInv s₁ := by
  obtain ⟨hnd, hne, hsel, hsub⟩ := hinv
  unfold GuiState.updatePoi at hok
  dsimp only at hok
  have hcons' : (o = "" ∧ n = "") ∨
      (o = "" ∧ n ≠ "" ∧ n ∉ keysOf s ∧ sameSet logic.poiNames (n :: keysOf s)) ∨
      (o ≠ "" ∧ n = "" ∧ sameSet logic.poiNames ((keysOf s).filter (· ≠ o))) ∨
      (o ≠ "" ∧ n ≠ "" ∧ o ≠ n ∧ o ∈ keysOf s ∧ n ∉ keysOf s ∧
        sameSet logic.poiNames (n :: (keysOf s).filter (· ≠ o))) ∨
      (o ≠ "" ∧ o = n ∧ o ∈ keysOf s) := hcons
  clear hcons
  rcases hcons' with ⟨ho, hn⟩ | ⟨ho, hn, hnk, hss⟩ | ⟨ho, hn, hss⟩ |
    ⟨ho, hn, hon, homem, hnk, hss⟩ | ⟨ho, heq, homem⟩
  · -- both names empty: pure no-op through the core lemma
    rw [if_neg (show ¬ o ≠ n from fun hc => hc (ho.trans hn.symm))] at hok
    exact selInv_updatePoi_core o n pos s s₁ hok hnd hne
      (fun p hp _ hps => hsel p hp hps) (fun k hk _ => hsub k hk)
      (fun _ hc => absurd hn hc) (fun hc _ => absurd ho hc)
  · -- add: the combo is rebuilt, the new name appended
    have hone : o ≠ n := fun hc => hn (hc ▸ ho)
    rw [if_pos hone] at hok
    by_cases ht : s.combo.currentText = o
    · rw [if_pos ht] at hok
      set sA : GuiState := { s with combo :=
        (Combo.clear.addItems (naturalSort logic.poiNames)).setCurrentText n }
        with hsA
      have hitems : sA.combo.items = naturalSort logic.poiNames := by
        rw [hsA]
        exact setCurrentText_items _ _
      refine selInv_updatePoi_core o n pos sA s₁ hok hnd hne ?_ ?_ ?_ ?_
      · intro p hp _ hps
        exfalso
        have h1 : ("" : String) ∈ keysOf s := by
          rw [← ho, ← ht, ← hsel p hp hps]
          exact List.mem_map_of_mem Prod.fst hp
        exact hne h1
      · intro k hk _
        rw [hitems]
        exact (mem_naturalSort _ _).mpr (hss.2 (List.mem_cons_of_mem _ hk))
      · intro _ _
        refine ⟨hnk, ?_⟩
        rw [hitems]
        exact (mem_naturalSort _ _).mpr (hss.2 (List.mem_cons_self _ _))
      · exact fun hc _ => absurd ho hc
    · rw [if_neg ht] at hok
      set sA : GuiState := { s with combo :=
        ((Combo.clear.addItems (naturalSort logic.poiNames)).setCurrentText
          s.combo.currentText) } with hsA
      have hitems : sA.combo.items = naturalSort logic.poiNames := by
        rw [hsA]
        exact setCurrentText_items _ _
      refine selInv_updatePoi_core o n pos sA s₁ hok hnd hne ?_ ?_ ?_ ?_
      · intro p hp _ hps
        have hpt : p.1 = s.combo.currentText := hsel p hp hps
        have htk : s.combo.currentText ∈ keysOf s := by
          rw [← hpt]
          exact List.mem_map_of_mem Prod.fst hp
        have hti : s.combo.currentText ∈ naturalSort logic.poiNames :=
          (mem_naturalSort _ _).mpr (hss.2 (List.mem_cons_of_mem _ htk))
        rw [hpt, hsA]
        exact (setCurrentText_hit _ _ hti).symm
      · intro k hk _
        rw [hitems]
        exact (mem_naturalSort _ _).mpr (hss.2 (List.mem_cons_of_mem _ hk))
      · intro _ _
        refine ⟨hnk, ?_⟩
        rw [hitems]
        exact (mem_naturalSort _ _).mpr (hss.2 (List.mem_cons_self _ _))
      · exact fun hc _ => absurd ho hc
  · -- delete: the combo is rebuilt without the removed name
    have hone : o ≠ n := fun hc => ho (hc.trans hn)
    rw [if_pos hone] at hok
    by_cases ht : s.combo.currentText = o
    · rw [if_pos ht] at hok
      set sA : GuiState := { s with combo :=
        (Combo.clear.addItems (naturalSort logic.poiNames)).setCurrentText n }
        with hsA
      refine selInv_updatePoi_core o n pos sA s₁ hok hnd hne ?_ ?_ ?_ ?_
      · intro p hp hpo hps
        exact absurd ((hsel p hp hps).trans ht) hpo
      · intro k hk hko
        have hitems : sA.combo.items = naturalSort logic.poiNames := by
          rw [hsA]
          exact setCurrentText_items _ _
        rw [hitems]
        exact (mem_naturalSort _ _).mpr
          (hss.2 (List.mem_filter.mpr ⟨hk, decide_eq_true hko⟩))
      · exact fun hc _ => absurd hc ho
      · exact fun _ hc => absurd hn hc
    · rw [if_neg ht] at hok
      set sA : GuiState := { s with combo :=
        ((Combo.clear.addItems (naturalSort logic.poiNames)).setCurrentText
          s.combo.currentText) } with hsA
      have hitems : sA.combo.items = naturalSort logic.poiNames := by
        rw [hsA]
        exact setCurrentText_items _ _
      refine selInv_updatePoi_core o n pos sA s₁ hok hnd hne ?_ ?_ ?_ ?_
      · intro p hp _ hps
        have hpt : p.1 = s.combo.currentText := hsel p hp hps
        have htk : s.combo.currentText ∈ keysOf s := by
          rw [← hpt]
          exact List.mem_map_of_mem Prod.fst hp
        have hti : s.combo.currentText ∈ naturalSort logic.poiNames :=
          (mem_naturalSort _ _).mpr
            (hss.2 (List.mem_filter.mpr ⟨htk, decide_eq_true ht⟩))
        rw [hpt, hsA]
        exact (setCurrentText_hit _ _ hti).symm
      · intro k hk hko
        rw [hitems]
        exact (mem_naturalSort _ _).mpr
          (hss.2 (List.mem_filter.mpr ⟨hk, decide_eq_true hko⟩))
      · exact fun hc _ => absurd hc ho
      · exact fun _ hc => absurd hn hc
  · -- rename: the combo is rebuilt with the new name replacing the old
    rw [if_pos hon] at hok
    by_cases ht : s.combo.currentText = o
    · rw [if_pos ht] at hok
      set sA : GuiState := { s with combo :=
        (Combo.clear.addItems (naturalSort logic.poiNames)).setCurrentText n }
        with hsA
      have hitems : sA.combo.items = naturalSort logic.poiNames := by
        rw [hsA]
        exact setCurrentText_items _ _
      have hniC : n ∈ naturalSort logic.poiNames :=
        (mem_naturalSort _ _).mpr (hss.2 (List.mem_cons_self _ _))
      refine selInv_updatePoi_core o n pos sA s₁ hok hnd hne ?_ ?_ ?_ ?_
      · intro p hp hpo hps
        exact absurd ((hsel p hp hps).trans ht) hpo
      · intro k hk hko
        rw [hitems]
        exact (mem_naturalSort _ _).mpr (hss.2 (List.mem_cons_of_mem _
          (List.mem_filter.mpr ⟨hk, decide_eq_true hko⟩)))
      · exact fun hc _ => absurd hc ho
      · intro _ _
        refine ⟨by rw [hitems]; exact hniC, Or.inr hnk, ?_⟩
        intro m _ _
        rw [hsA]
        exact (setCurrentText_hit _ _ hniC).symm
    · rw [if_neg ht] at hok
      set sA : GuiState := { s with combo :=
        ((Combo.clear.addItems (naturalSort logic.poiNames)).setCurrentText
          s.combo.currentText) } with hsA
      have hitems : sA.combo.items = naturalSort logic.poiNames := by
        rw [hsA]
        exact setCurrentText_items _ _
      have hniC : n ∈ naturalSort logic.poiNames :=
        (mem_naturalSort _ _).mpr (hss.2 (List.mem_cons_self _ _))
      refine selInv_updatePoi_core o n pos sA s₁ hok hnd hne ?_ ?_ ?_ ?_
      · intro p hp _ hps
        have hpt : p.1 = s.combo.currentText := hsel p hp hps
        have htk : s.combo.currentText ∈ keysOf s := by
          rw [← hpt]
          exact List.mem_map_of_mem Prod.fst hp
        have hti : s.combo.currentText ∈ naturalSort logic.poiNames :=
          (mem_naturalSort _ _).mpr (hss.2 (List.mem_cons_of_mem _
            (List.mem_filter.mpr ⟨htk, decide_eq_true ht⟩)))
        rw [hpt, hsA]
        exact (setCurrentText_hit _ _ hti).symm
      · intro k hk hko
        rw [hitems]
        exact (mem_naturalSort _ _).mpr (hss.2 (List.mem_cons_of_mem _
          (List.mem_filter.mpr ⟨hk, decide_eq_true hko⟩)))
      · exact fun hc _ => absurd hc ho
      · intro _ _
        refine ⟨by rw [hitems]; exact hniC, Or.inr hnk, ?_⟩
        intro m hm hms
        exfalso
        have hot : o = s.combo.currentText :=
          hsel (o, m) (assocLookup_mem o s.markers m hm) hms
        exact ht hot.symm
  · -- same non-empty name: re-keying in place through the core lemma
    rw [if_neg (show ¬ o ≠ n from fun hc => hc heq)] at hok
    refine selInv_updatePoi_core o n pos s s₁ hok hnd hne
      (fun p hp _ hps => hsel p hp hps) (fun k hk _ => hsub k hk)
      (fun hc _ => absurd hc ho) ?_
    intro _ _
    refine ⟨heq ▸ hsub o homem, Or.inl heq.symm, ?_⟩
    intro m hm hms
    exact heq.symm.trans (hsel (o, m) (assocLookup_mem o s.markers m hm) hms)

/-- `update_active_poi` preserves the selection invariant on every input. -/
lemma selInv_updateActivePoi (logic : Logic) (name : String) (s s₁ : GuiState)
    (hinv : selInv s) (hok : GuiState.updateActivePoi logic name s = Except.ok s₁) :
    selInv s₁ := by
  obtain ⟨hnd, hne, hsel, hsub⟩ := hinv
  unfold GuiState.updateActivePoi at hok
  dsimp only at hok
  have hnsel := deselectFirstSelected_none s.combo.currentText s.markers hnd hsel
  split at hok
  case isTrue h =>
    have hmemD : name ∈ keysOf s := by
      have h1 := mem_keys_of_assocLookup_isSome name
        (GuiState.deselectFirstSelected s.markers) h
      rwa [deselectFirstSelected_keys] at h1
    have hname : ¬ name = "" := fun hc => hne (hc ▸ hmemD)
    rw [if_neg hname, if_neg hname] at hok
    have hrec := Except.ok.inj hok
    subst hrec
    refine ⟨?_, ?_, ?_, ?_⟩
    · show ((GuiState.selectMarkerList name
        (GuiState.deselectFirstSelected s.markers)).map Prod.fst).Nodup
      rw [selectMarkerList_keys, deselectFirstSelected_keys]
      exact hnd
    · show "" ∉ (GuiState.selectMarkerList name
        (GuiState.deselectFirstSelected s.markers)).map Prod.fst
      rw [selectMarkerList_keys, deselectFirstSelected_keys]
      exact hne
    · intro p hp hps
      show p.1 = (s.combo.setCurrentText name).currentText
      have hp1 : p.1 = name := by
        rcases selectMarkerList_selected name
          (GuiState.deselectFirstSelected s.markers) p hp hps with h' | ⟨q, hq, _, hqs⟩
        · exact h'
        · rw [hnsel q hq] at hqs
          exact Bool.noConfusion hqs
      rw [hp1]
      exact (setCurrentText_hit s.combo name (hsub name hmemD)).symm
    · intro k hk
      show k ∈ (s.combo.setCurrentText name).items
      have hk' : k ∈ keysOf s := by
        have h1 : k ∈ (GuiState.selectMarkerList name
            (GuiState.deselectFirstSelected s.markers)).map Prod.fst := hk
        rwa [selectMarkerList_keys, deselectFirstSelected_keys] at h1
      rw [setCurrentText_items]
      exact hsub k hk'
  case isFalse h =>
    by_cases hname : name = ""
    · rw [if_pos hname, if_pos hname] at hok
      have hrec := Except.ok.inj hok
      subst hrec
      refine ⟨?_, ?_, ?_, ?_⟩
      · show ((GuiState.deselectFirstSelected s.markers).map Prod.fst).Nodup
        rw [deselectFirstSelected_keys]
        exact hnd
      · show "" ∉ (GuiState.deselectFirstSelected s.markers).map Prod.fst
        rw [deselectFirstSelected_keys]
        exact hne
      · intro p hp hps
        rw [hnsel p hp] at hps
        exact Bool.noConfusion hps
      · intro k hk
        show k ∈ s.combo.setCurrentIndexNeg1.items
        have hk' : k ∈ keysOf s := by
          have h1 : k ∈ (GuiState.deselectFirstSelected s.markers).map
            Prod.fst := hk
          rwa [deselectFirstSelected_keys] at h1
        exact hsub k hk'
    · rw [if_neg hname, if_neg hname] at hok
      have hrec := Except.ok.inj hok
      subst hrec
      refine ⟨?_, ?_, ?_, ?_⟩
      · show ((GuiState.deselectFirstSelected s.markers).map Prod.fst).Nodup
        rw [deselectFirstSelected_keys]
        exact hnd
      · show "" ∉ (GuiState.deselectFirstSelected s.markers).map Prod.fst
        rw [deselectFirstSelected_keys]
        exact hne
      · intro p hp hps
        rw [hnsel p hp] at hps
        exact Bool.noConfusion hps
      · intro k hk
        show k ∈ (s.combo.setCurrentText name).items
        have hk' : k ∈ keysOf s := by
          have h1 : k ∈ (GuiState.deselectFirstSelected s.markers).map
            Prod.fst := hk
          rwa [deselectFirstSelected_keys] at h1
        rw [setCurrentText_items]
        exact hsub k hk'

end SelInvLemmas

/-! ## Claim theorems -/

/-- **C3 counterexample.**  The claim demands `Invalid` for every string
containing a character outside `[A-Za-z0-9_]` at or before the first
mismatch, but `name_re` is Python `\w`, which is Unicode-aware: the string
`"é"` consists of one character outside `[A-Za-z0-9_]`, yet `validate`
accepts it unchanged. -/
theorem C3_counterexample :
    NameValidator.validate false "é".data 1 = (QVState.Acceptable, "é".data, 1) ∧
    asciiWordChar 'é' = false := by
  constructor
  · rfl
  · rfl

/-- **C3 (amended).**  `NameValidator.validate` behaves exactly as claimed
with the alphabet read as Python's Unicode word-character class `\w` (which
on ASCII is exactly `[A-Za-z0-9_]`): a non-empty all-word-character string is
`Acceptable`; the empty string is `Acceptable` iff `empty_allowed` and
`Intermediate` otherwise; any other string is `Invalid` with the matched
word-character prefix as the correction and the cursor position unchanged.
Stated for strings within the Latin-1 range, where `pyWordChar` is an exact
model of `\w`. -/
theorem C3_validator_behaviour (ea : Bool) (s : List Char) (pos : Nat)
    (_hlat : ∀ c ∈ s, c.val < 256) :
    (s = [] → NameValidator.validate ea s pos =
      (if ea then (QVState.Acceptable, ([] : List Char), pos)
       else (QVState.Intermediate, s, pos))) ∧
    (s ≠ [] → (∀ c ∈ s, pyWordChar c) →
      NameValidator.validate ea s pos = (QVState.Acceptable, s, pos)) ∧
    (s ≠ [] → ¬ (∀ c ∈ s, pyWordChar c) →
      NameValidator.validate ea s pos = (QVState.Invalid, s.takeWhile pyWordChar, pos)) := by
  refine ⟨?_, ?_, ?_⟩
  · rintro rfl
    rcases ea <;> simp [NameValidator.validate]
  · intro hne hall
    have hEmp : s.isEmpty = false := by simpa [List.isEmpty_iff] using hne
    have hm : List.takeWhile pyWordChar s = s :=
      List.takeWhile_eq_self_iff.mpr (by intro x hx; exact hall x hx)
    unfold NameValidator.validate nameReMatch
    simp [hEmp, hm]
  · intro hne hnall
    have hEmp : s.isEmpty = false := by simpa [List.isEmpty_iff] using hne
    have hms : List.takeWhile pyWordChar s ≠ s := by
      intro hcon
      exact hnall (fun x hx => List.takeWhile_eq_self_iff.mp hcon x hx)
    unfold NameValidator.validate nameReMatch
    by_cases hm0 : List.takeWhile pyWordChar s = []
    · simp [hEmp, hm0]
    · simp [hEmp, hm0, hms]

/-- **C3 witness** for the amended theorem at `"ab!c"`: the matched prefix
`"ab"` is returned with `Invalid` and the cursor stays at 3. -/
theorem C3_witness :
    NameValidator.validate false "ab!c".data 3 = (QVState.Invalid, "ab".data, 3) :=
  (C3_validator_behaviour false "ab!c".data 3 (by decide)).2.2 (by decide) (by decide)

/-- **C6.**  Constructing a `PoiMarker` at `(px, py)` with radius `r` places
the shape anchor at `(px − r, py − r)` and the label at
`(px + r/√2, py + r/√2)`; `set_position` and `set_radius` place anchor and
label by the same rule (with `set_radius` using the new radius), and
`set_radius` resizes the shape to `2·r` in both dimensions. -/
theorem C6_marker_geometry (px py q1 q2 r r' : ℝ) (name : String) (m : PoiMarkerG ℝ) :
    (PoiMarkerG.init (Real.sqrt 2) (px, py) r name).shapePos = (px - r, py - r) ∧
    (PoiMarkerG.init (Real.sqrt 2) (px, py) r name).labelPos
      = (px + r / Real.sqrt 2, py + r / Real.sqrt 2) ∧
    (PoiMarkerG.init (Real.sqrt 2) (px, py) r name).radius = r ∧
    (PoiMarkerG.setPosition (Real.sqrt 2) (q1, q2) m).shapePos
      = (q1 - m.radius, q2 - m.radius) ∧
    (PoiMarkerG.setPosition (Real.sqrt 2) (q1, q2) m).labelPos
      = (q1 + m.radius / Real.sqrt 2, q2 + m.radius / Real.sqrt 2) ∧
    (PoiMarkerG.setRadius (Real.sqrt 2) r' m).sizeW = 2 * r' ∧
    (PoiMarkerG.setRadius (Real.sqrt 2) r' m).sizeH = 2 * r' ∧
    (PoiMarkerG.setRadius (Real.sqrt 2) r' m).shapePos
      = (m.position.1 - r', m.position.2 - r') ∧
    (PoiMarkerG.setRadius (Real.sqrt 2) r' m).labelPos
      = (m.position.1 + r' / Real.sqrt 2, m.position.2 + r' / Real.sqrt 2) := by
  unfold PoiMarkerG.init PoiMarkerG.setPosition PoiMarkerG.setRadius PoiMarkerG.radius
  refine ⟨?_, ?_, ?_, rfl, rfl, rfl, rfl, rfl, rfl⟩
  · simp only [Prod.mk.injEq]
    exact ⟨by ring, by ring⟩
  · simp only [Prod.mk.injEq]
    exact ⟨by ring, by ring⟩
  · ring

/-- **C7.**  For a well-formed (`shape[1] = 4`) non-empty drift history the
time axis is chosen from the maximum timestamp `t`: unscaled seconds when
`t < 300`, minutes (`/60`) when `t < 7200`, hours (`/3600`) when
`t < 172800`, days (`/86400`) otherwise; the three shift series are plotted
against the scaled time. -/
theorem C7_history_time_axis (s : GuiState) (h : HistoryArray) (t : ℚ)
    (h4 : h.ncols = 4) (hmax : npMax (h.col 0) = Except.ok t) :
    (t < 300 → s.updateRoiHistory h = Except.ok { s with
        timeUnit := "s"
        xShiftData := (h.col 0, h.col 1)
        yShiftData := (h.col 0, h.col 2)
        zShiftData := (h.col 0, h.col 3) }) ∧
    (¬ t < 300 → t < 7200 → s.updateRoiHistory h = Except.ok { s with
        timeUnit := "min"
        xShiftData := ((h.col 0).map (· / 60), h.col 1)
        yShiftData := ((h.col 0).map (· / 60), h.col 2)
        zShiftData := ((h.col 0).map (· / 60), h.col 3) }) ∧
    (¬ t < 7200 → t < 172800 → s.updateRoiHistory h = Except.ok { s with
        timeUnit := "h"
        xShiftData := ((h.col 0).map (· / 3600), h.col 1)
        yShiftData := ((h.col 0).map (· / 3600), h.col 2)
        zShiftData := ((h.col 0).map (· / 3600), h.col 3) }) ∧
    (¬ t < 172800 → s.updateRoiHistory h = Except.ok { s with
        timeUnit := "d"
        xShiftData := ((h.col 0).map (· / 86400), h.col 1)
        yShiftData := ((h.col 0).map (· / 86400), h.col 2)
        zShiftData := ((h.col 0).map (· / 86400), h.col 3) }) := by
  unfold GuiState.updateRoiHistory
  refine ⟨?_, ?_, ?_, ?_⟩
  · intro h1
    simp [h4, hmax, h1]
  · intro h1 h2
    simp [h4, hmax, h1, h2]
  · intro h2 h3
    have h1 : ¬ t < 300 := fun hc => h2 (hc.trans (by norm_num))
    simp [h4, hmax, h1, h2, h3]
  · intro h3
    have h2 : ¬ t < 7200 := fun hc => h3 (hc.trans (by norm_num))
    have h1 : ¬ t < 300 := fun hc => h2 (hc.trans (by norm_num))
    simp [h4, hmax, h1, h2, h3]

/-- **C7 witness**: a history with maximum timestamp 1000 renders in minutes
with timestamps divided by 60. -/
theorem C7_witness :
    GuiState.init.updateRoiHistory ⟨4, [[1000, 1, 2, 3]]⟩ = Except.ok
      { GuiState.init with
        timeUnit := "min"
        xShiftData := ([1000 / 60], [1])
        yShiftData := ([1000 / 60], [2])
        zShiftData := ([1000 / 60], [3]) } :=
  (C7_history_time_axis GuiState.init ⟨4, [[1000, 1, 2, 3]]⟩ 1000 rfl rfl).2.1
    (by norm_num) (by norm_num)

/-- **C8.**  A history array whose row width is not 4 is rejected: the
handler logs an error and returns with all three shift plots (and every
other field) unchanged. -/
theorem C8_malformed_history_rejected (s : GuiState) (h : HistoryArray)
    (hw : h.ncols ≠ 4) :
    s.updateRoiHistory h = Except.ok
      { s with errorLog := s.errorLog ++ ["ROI history must be an array of type float[][4]."] } :=
  updateRoiHistory_badWidth s h hw

/-- **C8 witness** at row width 3. -/
theorem C8_witness :
    GuiState.init.updateRoiHistory ⟨3, [[1000, 1, 2]]⟩ = Except.ok
      { GuiState.init with errorLog := ["ROI history must be an array of type float[][4]."] } :=
  C8_malformed_history_rejected GuiState.init ⟨3, [[1000, 1, 2]]⟩ (by decide)

/-- **C9 counterexample.**  `update_poi` with an old name that has no marker
(here a rename notification `"X" → "Y"` delivered to a GUI with no markers)
raises `KeyError` from `self._markers[old_name]`, an unrecoverable fault that
propagates out of the handler — the claim that every handler terminates
normally on every input is false. -/
theorem C9_counterexample :
    GuiState.updatePoi ⟨["Y"], [], "", (0, 0, 0), ⟨4, [[0, 0, 0, 0]]⟩⟩ "X" "Y" (0, 0, 0)
      GuiState.init = Except.error (PyErr.keyError "X") := by
  rfl

/-- **C9 (amended).**  The handlers guard the failures they check for:
`update_active_poi` terminates normally on every input (unknown names
included), `_update_roi_history` handles a malformed row width by logging
and returning, `_remove_poi_marker` is a total no-op for an unknown name,
and `_add_poi_marker` logs an error and skips when the name already has a
marker; but `update_poi` raises a `KeyError` that propagates outward when
the old name of a rename, or the dropdown's current text, has no marker
(see the counterexample). -/
theorem C9_local_failure_handling (logic : Logic) (s : GuiState)
    (name rname dname : String) (h : HistoryArray) (pos : ℚ × ℚ × ℚ)
    (m : MarkerH) (hw : h.ncols ≠ 4)
    (hr : assocLookup rname s.markers = none)
    (hd : assocLookup dname s.markers = some m) (hdn : dname ≠ "") :
    (∃ s₁, GuiState.updateActivePoi logic name s = Except.ok s₁) ∧
    (∃ s₂, s.updateRoiHistory h = Except.ok s₂) ∧
    s.removePoiMarker rname = s ∧
    s.addPoiMarker dname pos = { s with errorLog := s.errorLog ++
      ["Unable to add POI marker to ROI image. POI marker already present."] } := by
  refine ⟨updateActivePoi_isOk logic name s,
    ⟨_, updateRoiHistory_badWidth s h hw⟩, ?_, ?_⟩
  · unfold GuiState.removePoiMarker
    rw [hr]
  · unfold GuiState.addPoiMarker
    rw [if_pos hdn,
      if_pos (show (assocLookup dname s.markers).isSome = true from by rw [hd]; rfl)]

/-- **C9 witness**: on a GUI with a single marker `"A"`,
`update_active_poi` with the unknown name `"ghost"` and
`_update_roi_history` with a width-3 array both return normally,
`_remove_poi_marker("ghost")` changes nothing, and a duplicate
`_add_poi_marker("A", ...)` only appends the error-log message. -/
theorem C9_witness :
    (∃ s₁, GuiState.updateActivePoi ⟨[], [], "", (0, 0, 0), ⟨4, [[0, 0, 0, 0]]⟩⟩ "ghost"
        wC1Mid = Except.ok s₁) ∧
    (∃ s₂, wC1Mid.updateRoiHistory ⟨3, [[0, 0, 0]]⟩ = Except.ok s₂) ∧
    wC1Mid.removePoiMarker "ghost" = wC1Mid ∧
    wC1Mid.addPoiMarker "A" (7, 8, 9) = { wC1Mid with errorLog := wC1Mid.errorLog ++
      ["Unable to add POI marker to ROI image. POI marker already present."] } :=
  C9_local_failure_handling _ wC1Mid "ghost" "ghost" "A" ⟨3, [[0, 0, 0]]⟩ (7, 8, 9)
    { id := 0, poiName := "A", pos := (1, 2), selected := true }
    (by decide) (by rfl) (by rfl) (by decide)

/-- **C10.**  `_remove_poi_marker` for a name absent from the marker dict is
a silent no-op: the state (marker dict, view items, connections, error log)
is returned unchanged and nothing is raised. -/
theorem C10_remove_unknown_is_noop (s : GuiState) (name : String)
    (h : assocLookup name s.markers = none) :
    s.removePoiMarker name = s := by
  unfold GuiState.removePoiMarker
  rw [h]

/-- **C10 witness** at a fresh state and the name `"ghost"`. -/
theorem C10_witness : GuiState.init.removePoiMarker "ghost" = GuiState.init :=
  C10_remove_unknown_is_noop GuiState.init "ghost" rfl

/-- **C2 (code bug).**  `on_deactivate` does *not* tear down every
connection made during activation: six connections stay live regardless of
the backend state (and in particular of how many POIs existed), because
`__disconnect_internal_signals` omits the threshold and diameter spin boxes,
`__disconnect_update_signals_from_logic` omits `sigThresholdUpdated` and
`sigDiameterUpdated`, and `__disconnect_control_signals_to_logic` omits the
auto-POI and delete-all-POI buttons.  Every per-marker connection *is* torn
down. -/
theorem C2_deactivate_leftover_connections (logic : Logic) (s : GuiState)
    (hok : GuiState.onActivate logic = Except.ok s) :
    s.onDeactivate.conns =
      [Sig.poiThresholdSpinEditingFinished, Sig.poiDiameterSpinEditingFinished,
       Sig.sigThresholdUpdated, Sig.sigDiameterUpdated,
       Sig.autoPoisClicked, Sig.delAllPoisClicked] := by
  obtain ⟨hc, hsa, hsc⟩ := onActivate_shape logic s hok
  unfold GuiState.onDeactivate
  rw [togglePoiSelector_false_noop s hsa hsc]
  unfold GuiState.disconnectControlSignalsToLogic disconnectSigs
  dsimp only
  rw [foldl_filter_markerConns, hc]
  have hMctl : (s.markers.map markerConnOf).filter
      (fun c => decide (¬ c ∈ controlSignalDisconnects)) = s.markers.map markerConnOf := by
    apply List.filter_eq_self.mpr
    intro c hcM
    obtain ⟨p, _, rfl⟩ := List.mem_map.mp hcM
    simp [markerConnOf, controlSignalDisconnects]
  have hMm : (s.markers.map markerConnOf).filter
      (fun c => decide (∀ p ∈ s.markers, c ≠ Sig.markerPoiSelected p.2.id)) = [] := by
    apply List.filter_eq_nil_iff.mpr
    intro c hcM
    obtain ⟨p, hp, rfl⟩ := List.mem_map.mp hcM
    intro hdec
    exact (of_decide_eq_true hdec) p hp rfl
  have hIctl : internalSignalConnects.filter
      (fun c => decide (¬ c ∈ controlSignalDisconnects)) = internalSignalConnects := by decide
  have hUctl : updateSignalConnects.filter
      (fun c => decide (¬ c ∈ controlSignalDisconnects)) = updateSignalConnects := by decide
  have hCctl : controlSignalConnects.filter
      (fun c => decide (¬ c ∈ controlSignalDisconnects))
      = [Sig.autoPoisClicked, Sig.delAllPoisClicked] := by decide
  have hIPm := filter_markerPred_of_no_marker s.markers internalSignalConnects (by decide)
  have hUPm := filter_markerPred_of_no_marker s.markers updateSignalConnects (by decide)
  have hCPm := filter_markerPred_of_no_marker s.markers
    [Sig.autoPoisClicked, Sig.delAllPoisClicked] (by decide)
  simp only [List.filter_append, hMctl, hMm, hIctl, hUctl, hCctl, hIPm, hUPm, hCPm,
    List.filter_nil, List.nil_append]
  decide

/-- **C2 witness**: activating on a backend with one POI and then
deactivating leaves exactly the six connections live. -/
theorem C2_witness :
    wActivatedState.onDeactivate.conns =
      [Sig.poiThresholdSpinEditingFinished, Sig.poiDiameterSpinEditingFinished,
       Sig.sigThresholdUpdated, Sig.sigDiameterUpdated,
       Sig.autoPoisClicked, Sig.delAllPoisClicked] :=
  C2_deactivate_leftover_connections wLogicA wActivatedState (by rfl)

/-- **C5.**  With the POI-placement mode just disabled, a scan-image click
emits no backend command; with it just enabled, a left-button click at
`(x, y)` emits exactly one add-POI command at `(x, y, roi_origin.z)`; a
non-left click emits nothing even with the mode enabled.  `hinv` states that
the click-listener connection mirrors the mode flag (which
`toggle_poi_selector` maintains), and `hemit` that the GUI is activated
(`sigAddPoiByClick` is connected to `logic.add_poi`). -/
theorem C5_click_to_add (logic : Logic) (s : GuiState) (pos : ℚ × ℚ) (b : MouseButton)
    (hinv : Sig.imageMouseClicked ∈ s.conns ↔ s.selectorActive = true)
    (hemit : Sig.sigAddPoiByClick ∈ s.conns) :
    (s.togglePoiSelector false).scanImageClicked logic pos b = [] ∧
    (s.togglePoiSelector true).scanImageClicked logic pos MouseButton.left
      = [Cmd.addPoiByClick (pos.1, pos.2, logic.roiOrigin.2.2)] ∧
    (b ≠ MouseButton.left → (s.togglePoiSelector true).scanImageClicked logic pos b = []) := by
  have hF : Sig.imageMouseClicked ∉ (s.togglePoiSelector false).conns := by
    rw [togglePoiSelector_conns]
    rcases hA : s.selectorActive <;> simp [hA, List.mem_filter]
    intro hc
    exact absurd (hinv.mp hc) (by simp [hA])
  have hT : Sig.imageMouseClicked ∈ (s.togglePoiSelector true).conns := by
    rw [togglePoiSelector_conns]
    rcases hA : s.selectorActive <;> simp [hA]
    exact hinv.mpr hA
  have hE : Sig.sigAddPoiByClick ∈ (s.togglePoiSelector true).conns := by
    rw [togglePoiSelector_conns]
    rcases hA : s.selectorActive <;> simp [hA, hemit]
  refine ⟨?_, ?_, ?_⟩
  · unfold GuiState.scanImageClicked
    simp [hF]
  · unfold GuiState.scanImageClicked GuiState.createPoiFromClick
    simp [hT, hE]
  · intro hb
    unfold GuiState.scanImageClicked GuiState.createPoiFromClick
    simp [hT, hb]

/-- **C5 witness** at a state with the add-POI connection live and the mode
flag consistent: enabling and left-clicking `(5, 7)` over ROI origin
`(0, 0, 9)` emits exactly `add_poi((5, 7, 9))`; a right click emits
nothing, and after disabling nothing is emitted. -/
theorem C5_witness :
    ({ GuiState.init with conns := [Sig.sigAddPoiByClick] }.togglePoiSelector
        false).scanImageClicked ⟨[], [], "", (0, 0, 9), ⟨4, [[0, 0, 0, 0]]⟩⟩ (5, 7)
        MouseButton.right = [] ∧
    ({ GuiState.init with conns := [Sig.sigAddPoiByClick] }.togglePoiSelector
        true).scanImageClicked ⟨[], [], "", (0, 0, 9), ⟨4, [[0, 0, 0, 0]]⟩⟩ (5, 7)
        MouseButton.left = [Cmd.addPoiByClick (5, 7, 9)] ∧
    (MouseButton.right ≠ MouseButton.left →
      ({ GuiState.init with conns := [Sig.sigAddPoiByClick] }.togglePoiSelector
          true).scanImageClicked ⟨[], [], "", (0, 0, 9), ⟨4, [[0, 0, 0, 0]]⟩⟩ (5, 7)
          MouseButton.right = []) :=
  C5_click_to_add ⟨[], [], "", (0, 0, 9), ⟨4, [[0, 0, 0, 0]]⟩⟩
    { GuiState.init with conns := [Sig.sigAddPoiByClick] } (5, 7) MouseButton.right
    (by decide) (by decide)

/-- **C4 counterexample.**  The claim quantifies over *every* backend
mapping, but `_add_poi_marker` silently skips an empty name (`if name:`): a
mapping whose only key is `""` leaves the marker set empty instead of making
it equal to `{""}`. -/
theorem C4_counterexample :
    (GuiState.updatePois ⟨["A"], [("A", (1, 2, 3))], "Z", (0, 0, 9), ⟨4, [[1, 0, 0, 0]]⟩⟩
        [("", (1, 2, 3))] GuiState.init).map (fun s => s.markers.map Prod.fst)
      = Except.ok [] ∧ ("" :: []) ≠ ([] : List String) := by
  constructor
  · rfl
  · decide

/-- **C4 (amended).**  For every current marker state and every backend
mapping whose names are non-empty, after `_update_pois` succeeds the marker
keys are exactly the mapping's names: names that disappeared have their
marker dropped, its `sigPoiSelected` connection torn down and its view item
detached; persisting names keep the same marker object (same `id`)
repositioned to the reported position; new names get a freshly created
marker (an `id` no existing marker has) at the reported position.  `hid`
states that the identity allocator dominates the live markers, which holds
in every reachable state. -/
theorem C4_reconciliation (logic : Logic) (d : List (String × (ℚ × ℚ × ℚ)))
    (s s' : GuiState)
    (hdne : ∀ n ∈ d.map Prod.fst, n ≠ "")
    (hid : ∀ p ∈ s.markers, p.2.id < s.nextId)
    (hok : GuiState.updatePois logic d s = Except.ok s') :
    (∀ n, (assocLookup n s'.markers).isSome ↔ n ∈ d.map Prod.fst) ∧
    (∀ n m p, assocLookup n s.markers = some m → assocLookup n d = some p →
      ∃ m', assocLookup n s'.markers = some m' ∧ m'.id = m.id ∧ m'.pos = (p.1, p.2.1)) ∧
    (∀ n m, assocLookup n s.markers = some m → n ∉ d.map Prod.fst →
      assocLookup n s'.markers = none ∧
      Sig.markerPoiSelected m.id ∉ s'.conns ∧ m.id ∉ s'.viewItems) ∧
    (∀ n p, assocLookup n s.markers = none → assocLookup n d = some p →
      ∃ m', assocLookup n s'.markers = some m' ∧ m'.pos = (p.1, p.2.1) ∧
        s.nextId ≤ m'.id ∧ ∀ q ∈ s.markers, m'.id ≠ q.2.id) := by
  unfold GuiState.updatePois at hok
  dsimp only at hok
  obtain ⟨s3, hrep, hok1⟩ := exceptBind_ok_inv hok
  clear hok
  obtain ⟨s4, hadd, hok2⟩ := exceptBind_ok_inv hok1
  clear hok1
  obtain ⟨⟨hrc, hrv, hrn⟩, hrmiss, hrhit⟩ := repositionFold_props d _ _ _ hrep
  obtain ⟨hamono, hamiss, hahit, haconn, haview⟩ := addFold_props d _ _ _ hadd
  clear hrep hadd
  set PN := naturalSort (d.map Prod.fst) with hPN
  set OLD := s.markers.map Prod.fst with hOLD
  set S1 : GuiState := { s with combo := Combo.clear.addItems PN } with hS1
  set TD := (OLD.filter (fun n => decide (¬ n ∈ PN))).dedup with hTD
  set S2 := TD.foldl GuiState.removePoiMarker S1 with hS2
  set NA := (PN.filter (fun n => decide (¬ n ∈ OLD))).dedup with hNA
  -- membership characterisations of the two diff sets
  have hTDiff : ∀ n, n ∈ TD ↔ (n ∈ OLD ∧ n ∉ d.map Prod.fst) := by
    intro n
    rw [hTD, List.mem_dedup, List.mem_filter]
    constructor
    · rintro ⟨h1, h2⟩
      have h2' := of_decide_eq_true h2
      exact ⟨h1, fun hc => h2' ((mem_naturalSort n _).mpr hc)⟩
    · rintro ⟨h1, h2⟩
      exact ⟨h1, decide_eq_true (fun hc => h2 ((mem_naturalSort n _).mp hc))⟩
  have hNAiff : ∀ n, n ∈ NA ↔ (n ∈ d.map Prod.fst ∧ n ∉ OLD) := by
    intro n
    rw [hNA, List.mem_dedup, List.mem_filter]
    constructor
    · rintro ⟨h1, h2⟩
      exact ⟨(mem_naturalSort n _).mp h1, of_decide_eq_true h2⟩
    · rintro ⟨h1, h2⟩
      exact ⟨(mem_naturalSort n _).mpr h1, decide_eq_true h2⟩
  -- lookup in the state after deletions
  have hS2lk : ∀ n, assocLookup n S2.markers
      = if n ∈ TD then none else assocLookup n s.markers := by
    intro n
    rw [hS2, removeFold_lookup]
  have hn2 : S2.nextId = s.nextId := (removeFold_frame TD S1).1
  have hn3 : s3.nextId = s.nextId := by rw [hrn]; exact hn2
  -- (A) persisting markers
  have persist4 : ∀ n m p, assocLookup n s.markers = some m → assocLookup n d = some p →
      assocLookup n s4.markers = some { m with pos := (p.1, p.2.1) } := by
    intro n m p hm hp
    have hnd : n ∈ d.map Prod.fst := mem_keys_of_assocLookup_isSome n d (by rw [hp]; rfl)
    have hnOLD : n ∈ OLD := by
      rw [hOLD]
      exact mem_keys_of_assocLookup_isSome n s.markers (by rw [hm]; rfl)
    have hnTD : n ∉ TD := fun hc => ((hTDiff n).mp hc).2 hnd
    have h2 : assocLookup n S2.markers = some m := by
      rw [hS2lk n, if_neg hnTD]
      exact hm
    have hmemS2 : n ∈ S2.markers.map Prod.fst :=
      mem_keys_of_assocLookup_isSome n S2.markers (by rw [h2]; rfl)
    obtain ⟨p', hp', hlk3⟩ := hrhit n hmemS2
    have hpp : p' = p := by
      rw [hp] at hp'
      exact (Option.some.inj hp').symm
    subst hpp
    have h3 : assocLookup n s3.markers = some { m with pos := (p'.1, p'.2.1) } := by
      rw [hlk3, h2]
      rfl
    have hnNA : n ∉ NA := fun hc => ((hNAiff n).mp hc).2 hnOLD
    rw [hamiss n hnNA]
    exact h3
  -- (B) removed markers
  have removed4 : ∀ n m, assocLookup n s.markers = some m → n ∉ d.map Prod.fst →
      assocLookup n s4.markers = none ∧
      Sig.markerPoiSelected m.id ∉ s4.conns ∧ m.id ∉ s4.viewItems := by
    intro n m hm hnd
    have hnOLD : n ∈ OLD := by
      rw [hOLD]
      exact mem_keys_of_assocLookup_isSome n s.markers (by rw [hm]; rfl)
    have hnTD : n ∈ TD := (hTDiff n).mpr ⟨hnOLD, hnd⟩
    have h2none : assocLookup n S2.markers = none := by rw [hS2lk n, if_pos hnTD]
    have h2memno : n ∉ S2.markers.map Prod.fst := by
      intro hc
      have := assocLookup_isSome_of_mem_keys n S2.markers hc
      rw [h2none] at this
      simp at this
    have h3none : assocLookup n s3.markers = none := by
      rw [hrmiss n h2memno]
      exact h2none
    have hnNA : n ∉ NA := fun hc => hnd ((hNAiff n).mp hc).1
    have h4none : assocLookup n s4.markers = none := by
      rw [hamiss n hnNA]
      exact h3none
    have hm1 : assocLookup n S1.markers = some m := hm
    obtain ⟨hcS2, hvS2⟩ := removeFold_removed TD S1 n m hnTD hm1
    have hidm : m.id < s.nextId := hid (n, m) (assocLookup_mem n s.markers m hm)
    refine ⟨h4none, ?_, ?_⟩
    · intro hc
      rcases haconn _ hc with h | ⟨i, hi, heq⟩
      · rw [hrc] at h
        exact hcS2 h
      · have hmi : m.id = i := by
          injection heq
        rw [hn3] at hi
        rw [hmi] at hidm
        exact absurd hidm (not_lt.mpr hi)
    · intro hviw
      rcases haview _ hviw with h | h
      · rw [hrv] at h
        exact hvS2 h
      · rw [hn3] at h
        exact absurd hidm (not_lt.mpr h)
  -- lookup is none through deletion and reposition for names not previously present
  have hnone3 : ∀ k, k ∉ OLD → assocLookup k s3.markers = none := by
    intro k hkOLD
    have hks : assocLookup k s.markers = none :=
      assocLookup_eq_none_of_not_mem k s.markers (by rw [← hOLD]; exact hkOLD)
    have hk2 : assocLookup k S2.markers = none := by
      rw [hS2lk k]
      split
      · rfl
      · exact hks
    have hk2m : k ∉ S2.markers.map Prod.fst := by
      intro hc
      have := assocLookup_isSome_of_mem_keys k S2.markers hc
      rw [hk2] at this
      simp at this
    rw [hrmiss k hk2m]
    exact hk2
  -- (C) fresh markers
  have fresh4 : ∀ n p, assocLookup n s.markers = none → assocLookup n d = some p →
      ∃ m', assocLookup n s4.markers = some m' ∧ m'.pos = (p.1, p.2.1) ∧
        s.nextId ≤ m'.id := by
    intro n p hm hp
    have hnd : n ∈ d.map Prod.fst := mem_keys_of_assocLookup_isSome n d (by rw [hp]; rfl)
    have hnOLD : n ∉ OLD := by
      intro hc
      have := assocLookup_isSome_of_mem_keys n s.markers (by rw [← hOLD]; exact hc)
      rw [hm] at this
      simp at this
    have hnNA : n ∈ NA := (hNAiff n).mpr ⟨hnd, hnOLD⟩
    obtain ⟨p', m', hp', hlk4, hpos4, hid4⟩ := hahit (List.nodup_dedup _)
      (fun k hk => hdne k ((hNAiff k).mp hk).1)
      (fun k hk => hnone3 k ((hNAiff k).mp hk).2) n hnNA
    have hpp : p' = p := by
      rw [hp] at hp'
      exact (Option.some.inj hp').symm
    subst hpp
    refine ⟨m', hlk4, hpos4, ?_⟩
    rw [← hn3]
    exact hid4
  -- key set of `s4`
  have keysIff4 : ∀ n, (assocLookup n s4.markers).isSome ↔ n ∈ d.map Prod.fst := by
    intro n
    constructor
    · intro hsome
      by_contra hnd
      rcases hms : assocLookup n s.markers with _ | m
      · have hnOLD : n ∉ OLD := by
          intro hc
          have := assocLookup_isSome_of_mem_keys n s.markers (by rw [← hOLD]; exact hc)
          rw [hms] at this
          simp at this
        have hnNA : n ∉ NA := fun hc => hnd ((hNAiff n).mp hc).1
        have h3 := hnone3 n hnOLD
        rw [hamiss n hnNA, h3] at hsome
        simp at hsome
      · obtain ⟨h4none, _, _⟩ := removed4 n m hms hnd
        rw [h4none] at hsome
        simp at hsome
    · intro hnd
      rcases hms : assocLookup n s.markers with _ | m
      · obtain ⟨p, hp⟩ := Option.isSome_iff_exists.mp (assocLookup_isSome_of_mem_keys n d hnd)
        obtain ⟨m', hlk, _, _⟩ := fresh4 n p hms hp
        rw [hlk]
        rfl
      · obtain ⟨p, hp⟩ := Option.isSome_iff_exists.mp (assocLookup_isSome_of_mem_keys n d hnd)
        have := persist4 n m p hms hp
        rw [this]
        rfl
  -- distinctness of fresh ids from every pre-existing marker
  have freshDistinct : ∀ m' : MarkerH, s.nextId ≤ m'.id → ∀ q ∈ s.markers, m'.id ≠ q.2.id := by
    intro m' hle q hq
    have := hid q hq
    intro hc
    rw [← hc] at this
    exact absurd this (not_lt.mpr hle)
  -- transport along the final active-POI branch
  split at hok2
  · obtain ⟨mA, _, hok3⟩ := exceptBind_ok_inv hok2
    obtain ⟨posA, _, hok4⟩ := exceptBind_ok_inv hok3
    have hfin := Except.ok.inj hok4
    subst hfin
    refine ⟨?_, ?_, ?_, ?_⟩
    · intro n
      show (assocLookup n (GuiState.selectMarkerList logic.activePoi s4.markers)).isSome ↔ _
      rw [selectMarkerList_lookup, ← keysIff4 n]
      rcases assocLookup n s4.markers with _ | m4 <;> simp
    · intro n m p hm hp
      have h4 := persist4 n m p hm hp
      show ∃ m', assocLookup n (GuiState.selectMarkerList logic.activePoi s4.markers)
          = some m' ∧ m'.id = m.id ∧ m'.pos = (p.1, p.2.1)
      rw [selectMarkerList_lookup, h4]
      refine ⟨_, rfl, ?_, ?_⟩ <;> by_cases hna : n = logic.activePoi <;> simp [hna]
    · intro n m hm hnd
      obtain ⟨h4n, h4c, h4v⟩ := removed4 n m hm hnd
      refine ⟨?_, h4c, h4v⟩
      show assocLookup n (GuiState.selectMarkerList logic.activePoi s4.markers) = none
      rw [selectMarkerList_lookup, h4n]
      rfl
    · intro n p hm hp
      obtain ⟨m', hlk, hpos, hle⟩ := fresh4 n p hm hp
      show ∃ m'', assocLookup n (GuiState.selectMarkerList logic.activePoi s4.markers)
          = some m'' ∧ m''.pos = (p.1, p.2.1) ∧ s.nextId ≤ m''.id ∧
          ∀ q ∈ s.markers, m''.id ≠ q.2.id
      rw [selectMarkerList_lookup, hlk]
      refine ⟨_, rfl, ?_, ?_, ?_⟩
      · by_cases hna : n = logic.activePoi <;> simp [hna, hpos]
      · by_cases hna : n = logic.activePoi <;> simp [hna, hle]
      · intro q hq
        by_cases hna : n = logic.activePoi <;>
          simp [hna, freshDistinct m' hle q hq]
  · have hfin := Except.ok.inj hok2
    subst hfin
    refine ⟨keysIff4, ?_, removed4, ?_⟩
    · intro n m p hm hp
      exact ⟨_, persist4 n m p hm hp, rfl, rfl⟩
    · intro n p hm hp
      obtain ⟨m', hlk, hpos, hle⟩ := fresh4 n p hm hp
      exact ⟨m', hlk, hpos, hle, freshDistinct m' hle⟩

/-- **C4 witness**: reconciling markers `{A, B}` against mapping `{B, C}`
tears down `A` (marker gone, click connection gone, view item gone), keeps
`B` as the same object (id 1) repositioned, and creates `C` with a fresh
id. -/
theorem C4_witness :
    (assocLookup "A" wReconC4.markers = none ∧
      Sig.markerPoiSelected 0 ∉ wReconC4.conns ∧ (0 : Nat) ∉ wReconC4.viewItems) ∧
    (∃ m', assocLookup "B" wReconC4.markers = some m' ∧ m'.id = 1 ∧ m'.pos = (5, 6)) ∧
    (∃ m', assocLookup "C" wReconC4.markers = some m' ∧ m'.pos = (8, 9) ∧
      wStateC4.nextId ≤ m'.id ∧ ∀ q ∈ wStateC4.markers, m'.id ≠ q.2.id) := by
  have h := C4_reconciliation wLogicC4 wDictC4 wStateC4 wReconC4
    (by decide) (by decide) (by rfl)
  exact ⟨h.2.2.1 "A" ⟨0, "A", (1, 1), false⟩ (by rfl) (by decide),
    h.2.1 "B" ⟨1, "B", (2, 2), true⟩ (5, 6, 7) (by rfl) (by rfl),
    h.2.2.2 "C" (8, 9, 10) (by rfl) (by rfl)⟩

/-- **C1 counterexample.**  The claim quantifies over `_update_pois` as well,
but `_update_pois` selects the backend's active POI without deselecting the
previously selected marker.  Concretely: add `"A"` (which gets selected, the
dropdown showing `"A"`), add `"B"`, then deliver a full `_update_pois`
reconciliation whose backend active POI is `"B"`.  Afterwards *both* markers
have `selected = true` — and the selected marker `"A"` does not match the
dropdown text `"B"` — refuting both halves of the claimed invariant. -/
theorem C1_counterexample :
    (stepEvent (GuiEvent.poiUpdated
        ⟨["A"], [("A", (1, 2, 3))], "A", (0, 0, 0), ⟨4, [[0, 0, 0, 0]]⟩⟩
        "" "A" (1, 2, 3)) GuiState.init >>=
      stepEvent (GuiEvent.poiUpdated
        ⟨["A", "B"], [("A", (1, 2, 3)), ("B", (4, 5, 6))], "A", (0, 0, 0),
          ⟨4, [[0, 0, 0, 0]]⟩⟩
        "" "B" (4, 5, 6)) >>=
      stepEvent (GuiEvent.poisUpdated
        ⟨["A", "B"], [("A", (1, 2, 3)), ("B", (4, 5, 6))], "B", (0, 0, 0),
          ⟨4, [[0, 0, 0, 0]]⟩⟩
        [("A", (1, 2, 3)), ("B", (4, 5, 6))])).map
      (fun sF => ((sF.markers.filter (fun p => p.2.selected)).map Prod.fst,
        sF.combo.currentText))
      = Except.ok (["A", "B"], "B") := by
  rfl

/-- **C1 (amended).**  Across any run of *consistent* incremental POI
notifications (`update_poi` and `update_active_poi`) from the initial state,
at most one marker has `selected = true` at any observed point, and every
selected marker's name equals the dropdown's current text whenever that text
is non-empty.  The claim's additional quantification over `_update_pois` is
refuted by `C1_counterexample`: a reconciliation whose backend active POI
differs from the currently selected marker leaves two markers selected. -/
theorem C1_selection_invariant (es : List GuiEvent) (s' : GuiState)
    (hinc : ∀ e ∈ es, isIncremental e = true)
    (hrun : ConsistentSteps GuiState.init es s') :
    (s'.markers.filter (fun p => p.2.selected)).length ≤ 1 ∧
    (∀ p ∈ s'.markers, p.2.selected = true →
      s'.combo.currentText ≠ "" → p.1 = s'.combo.currentText) := by
  have hstep : ∀ (s0 : GuiState) (es0 : List GuiEvent) (s2 : GuiState),
      ConsistentSteps s0 es0 s2 → selInv s0 →
      (∀ e ∈ es0, isIncremental e = true) → selInv s2 := by
    intro s0 es0 s2 hrun0
    induction hrun0 with
    | nil s => exact fun hs _ => hs
    | cons e es1 s sm s2' hce hst hrest ih =>
        intro hs hi
        refine ih ?_ (fun e' he' => hi e' (List.mem_cons_of_mem _ he'))
        cases e with
        | poiUpdated logic o n p => exact selInv_updatePoi logic o n p s sm hs hce hst
        | activePoiUpdated logic nm => exact selInv_updateActivePoi logic nm s sm hs hst
        | poisUpdated logic d =>
            have h := hi _ (List.mem_cons_self _ _)
            simp [isIncremental] at h
  have hInv : selInv s' := hstep GuiState.init es s' hrun (by decide) hinc
  obtain ⟨hnd, hne, hsel, hsub⟩ := hInv
  exact ⟨filter_selected_len_le_one s'.combo.currentText s'.markers hnd hsel,
    fun p hp hps _ => hsel p hp hps⟩

/-- **C1 witness.**  The amended theorem applied to the concrete consistent
run "add POI `A`, then activate `A`" from the initial state. -/
theorem C1_witness :
    (wC1Final.markers.filter (fun p => p.2.selected)).length ≤ 1 ∧
    (∀ p ∈ wC1Final.markers, p.2.selected = true →
      wC1Final.combo.currentText ≠ "" → p.1 = wC1Final.combo.currentText) :=
  C1_selection_invariant [wEvC1add, wEvC1act] wC1Final
    (by
      intro e he
      rcases List.mem_cons.mp he with rfl | he'
      · rfl
      · rcases List.mem_cons.mp he' with rfl | he''
        · rfl
        · cases he'')
    (ConsistentSteps.cons wEvC1add [wEvC1act] GuiState.init wC1Mid wC1Final
      (by decide) (by rfl)
      (ConsistentSteps.cons wEvC1act [] wC1Mid wC1Final wC1Final
        (by decide) (by rfl)
        (ConsistentSteps.nil wC1Final)))

end OpxPoiManager
